import Mathlib

/-!
# vqm2blif utilities: name resolution and mode hashing

A shallow embedding of `EXE/SRC/base/vqm2blif_util.cpp`:

* `append_index_to_str`, `get_wire_name` : net / bus name resolution;
* `clean_name` : the identifier sanitizer;
* `find_arch_model_by_name` : the architecture catalog lookup;
* `generate_opname` : the mode-hash resolver;
* `verify_module` : the structural validator of a parsed module.

Conventions of the embedding.

* A C string (`char*`, `std::string`) is a Lean `String`; `strcmp(a, b) == 0` is `a = b`.
  A name pointer (`net->name`, `vqm_node->type`, `arch_model->name`, `module->name`) is taken
  to point to a string, so that `name != NULL` holds and `strlen(name) > 0` says that the
  string is not empty.  The only character that the code looks at is the space.
* A C `int` is an `Int`.  The functions embedded here only compare and print
  integers, they never do arithmetic on them.
* A process-terminating path (`exit(1)` after a diagnostic on `cout`, or a failed
  `assert`) is a value of `fatal`; a function that can terminate the process returns
  `Except fatal _`, with `Except.ok` for a normal return.
* A singly linked list (`t_model::next`) and a counted array
  (`array_of_params` / `number_of_params`) are Lean lists, in traversal order.
* A pointer that the code tests against `NULL` (a module, an entry of `array_of_pins`,
  `array_of_assignments`, `array_of_nodes` or `array_of_ports`, the pin of an assignment or of
  a port association) is an `Option`, with `none` for the null pointer.
-/

namespace Vqm2Blif

/-! ## Data model -/

/-- Ways in which the translation terminates the process. -/
inductive fatal where
  /-- A failed `assert (...)`. -/
  | assert_failed
  /-- The call `exit(1)`, with the diagnostic written to `cout` just before it. -/
  | exit_1 (cout : String)
  deriving DecidableEq, Repr

deriving instance DecidableEq for Except

/-- Modelled from the spec: the two-valued flag type `t_boolean` (`T_FALSE`, `T_TRUE`) of the
netlist data model, declared in a header that is not part of the sources at hand. -/
inductive t_boolean where
  | T_FALSE
  | T_TRUE
  deriving DecidableEq, Repr

/-- Modelled from the spec: a Pin (net) `t_pin_def`, with its name, its `indexed` flag and its
`left` / `right` bit bounds; the declaring header is not part of the sources at hand. -/
structure t_pin_def where
  name : String
  indexed : t_boolean
  left : Int
  right : Int
  deriving DecidableEq, Repr

/-- Modelled from the spec: the type tag of a parameter (type ∈ {integer, string}),
`t_node_parameter_type` in the missing header. -/
inductive t_node_parameter_type where
  | NODE_PARAMETER_STRING
  | NODE_PARAMETER_INTEGER
  deriving DecidableEq, Repr

/-- Modelled from the spec: the value storage of a parameter, read in the source as
`value.string_value` and `value.integer_value`.  Both members are kept side by side; the code
reads only the member that goes with the type tag it has asserted. -/
structure t_node_parameter_value where
  string_value : String
  integer_value : Int
  deriving DecidableEq, Repr

/-- Modelled from the spec: a named, typed Parameter `t_node_parameter` of an Instance. -/
structure t_node_parameter where
  name : String
  type : t_node_parameter_type
  value : t_node_parameter_value
  deriving DecidableEq, Repr

/-- Modelled from the spec: a Port Association `t_node_port_association`, linking a port of an
Instance to an associated Pin (a pointer, possibly null) and a bit index. -/
structure t_node_port_association where
  associated_net : Option t_pin_def
  wire_index : Int
  deriving DecidableEq, Repr

/-- Modelled from the spec: an Instance (primitive node) `t_node`: declared type name,
parameters (`array_of_params`, `number_of_params`) and port associations
(`array_of_ports`, `number_of_ports`, entries possibly null). -/
structure t_node where
  type : String
  array_of_params : List t_node_parameter
  array_of_ports : List (Option t_node_port_association)
  deriving DecidableEq, Repr

/-- Modelled from the spec: an Architecture Model `t_model`, identified by its name; the catalog
is the list obtained by following `next` from the head.  A catalog entry holds more than its
name (what a caller reads from the model that the lookup returns); the functions embedded here
never look at it.  The field `index` stands for it, so that two entries of the same name are
two different entries. -/
structure t_model where
  name : String
  index : Int := 0
  deriving DecidableEq, Repr

/-- Modelled from the spec: an Assignment `t_assign`, binding a target Pin (a pointer, possibly
null) or one bit of it, selected by `target_index`. -/
structure t_assign where
  target : Option t_pin_def
  target_index : Int
  deriving DecidableEq, Repr

/-- Modelled from the spec: a Module `t_module`: its name and its collections of pins,
assignments and instances (counted arrays whose entries are pointers, possibly null). -/
structure t_module where
  name : String
  array_of_pins : List (Option t_pin_def)
  array_of_assignments : List (Option t_assign)
  array_of_nodes : List (Option t_node)
  deriving DecidableEq, Repr

/-! ## Integer formatting -/

/-- Decimal text of an `int`, as produced by `ss << index` and by `snprintf (.., "%d", ..)`:
a minus sign for a negative value, then the base-10 digits of the magnitude.  The text of a
32-bit `int` has at most 11 characters (`int_to_decimal_length`), so the 128-byte buffer that
`generate_opname` hands to `snprintf` never cuts it short. -/
def int_to_decimal : Int → String
  | Int.ofNat n => Nat.repr n
  | Int.negSucc n => "-" ++ Nat.repr (n + 1)

/-! ## Net / bus name resolution -/

/-- The function `append_index_to_str (busname, index)`. -/
def append_index_to_str (busname : String) (index : Int) : Except fatal String :=
  if index < 0 then
    Except.error (fatal.exit_1 ("PARSER ERROR: Cannot append " ++ int_to_decimal index ++ " as index.\n"))
  else
    Except.ok (busname ++ "[" ++ int_to_decimal index ++ "]")

/-- The function `get_wire_name (net, index)`. -/
def get_wire_name (net : t_pin_def) (index : Int) : Except fatal String :=
  if net.indexed = t_boolean.T_FALSE then
    Except.ok net.name
  else if index = -1 then
    if net.left = net.right then
      append_index_to_str net.name net.left
    else
      Except.error fatal.assert_failed
  else
    append_index_to_str net.name index

/-! ## Identifier sanitizer -/

/-- The loop of `clean_name`, from position `p` on: `for (; p < strlen(name); p++)`, with the
`switch` that overwrites a space by an underscore in place. -/
def clean_name_loop (name : List Char) (p : Nat) : List Char :=
  if h : p < name.length then
    if name[p] = ' ' then
      clean_name_loop (name.set p '_') (p + 1)
    else
      clean_name_loop name (p + 1)
  else
    name
termination_by name.length - p
decreasing_by
  all_goals simp_wf
  all_goals omega

/-- The function `clean_name (name)`, on the characters of the string. -/
def clean_name (name : String) : String :=
  String.mk (clean_name_loop name.data 0)

/-! ## Architecture catalog lookup -/

/-- The function `find_arch_model_by_name (model_name, arch_models)`: walk the list until the
first model whose name compares equal; `none` is the null pointer. -/
def find_arch_model_by_name (model_name : String) : List t_model → Option t_model
  | [] => none
  | arch_model :: next =>
    if model_name = arch_model.name then some arch_model
    else find_arch_model_by_name model_name next

/-! ## Mode-hash resolver -/

/-- The five parameter pointers that the scan of `generate_opname` fills in
(`NULL` is `none`). -/
structure opname_params where
  operation_mode : Option t_node_parameter
  port_a_data_width : Option t_node_parameter
  port_a_addr_width : Option t_node_parameter
  port_b_data_width : Option t_node_parameter
  port_b_addr_width : Option t_node_parameter
  deriving DecidableEq, Repr

/-- All five pointers initialised to `NULL`. -/
def opname_params_init : opname_params :=
  { operation_mode := none, port_a_data_width := none, port_a_addr_width := none,
    port_b_data_width := none, port_b_addr_width := none }

/-- One iteration of the parameter loop of `generate_opname`, on `temp_param`. -/
def scan_param (found : opname_params) (temp_param : t_node_parameter) :
    Except fatal opname_params :=
  if temp_param.name = "operation_mode" then
    if temp_param.type = t_node_parameter_type.NODE_PARAMETER_STRING then
      Except.ok { found with operation_mode := some temp_param }
    else Except.error fatal.assert_failed
  else if temp_param.name = "port_a_data_width" then
    if temp_param.type = t_node_parameter_type.NODE_PARAMETER_INTEGER then
      Except.ok { found with port_a_data_width := some temp_param }
    else Except.error fatal.assert_failed
  else if temp_param.name = "port_a_address_width" then
    if temp_param.type = t_node_parameter_type.NODE_PARAMETER_INTEGER then
      Except.ok { found with port_a_addr_width := some temp_param }
    else Except.error fatal.assert_failed
  else if temp_param.name = "port_b_data_width" then
    if temp_param.type = t_node_parameter_type.NODE_PARAMETER_INTEGER then
      Except.ok { found with port_b_data_width := some temp_param }
    else Except.error fatal.assert_failed
  else if temp_param.name = "port_b_address_width" then
    if temp_param.type = t_node_parameter_type.NODE_PARAMETER_INTEGER then
      Except.ok { found with port_b_addr_width := some temp_param }
    else Except.error fatal.assert_failed
  else
    Except.ok found

/-- The parameter loop of `generate_opname`:
`for (int i = 0; i < vqm_node->number_of_params; i++)`. -/
def scan_params : List t_node_parameter → opname_params → Except fatal opname_params
  | [], found => Except.ok found
  | temp_param :: rest, found =>
    match scan_param found temp_param with
    | Except.error e => Except.error e
    | Except.ok found1 => scan_params rest found1

/-- Step 1 of `generate_opname`: the block name, with the cleaned operation mode appended when
an `operation_mode` parameter was found. -/
def opmode_name (type : String) (operation_mode : Option t_node_parameter) : String :=
  match operation_mode with
  | some om => type ++ (".opmode\x7b" ++ clean_name om.value.string_value ++ "\x7d")
  | none => type

/-- Steps 2 to 4 of `generate_opname`: the memory-specific part, from the name built in step 1
and the width parameters found, up to (not including) the final sanity check. -/
def memory_name (mode_hash : String) (found : opname_params) (arch_models : List t_model) :
    Except fatal String :=
  match found.port_a_data_width, found.port_a_addr_width,
        found.port_b_data_width, found.port_b_addr_width with
  | some _, some a_addr, none, none =>
    -- 2) a single port memory, only port A params are found
    let mode_hash := mode_hash ++
      (".port_a_address_width\x7b" ++ int_to_decimal a_addr.value.integer_value ++ "\x7d")
    if find_arch_model_by_name mode_hash arch_models = none then
      Except.error (fatal.exit_1 ("Error: could not find single port memory primitive \x27"
        ++ mode_hash ++ "\x27 in architecture file"))
    else Except.ok mode_hash
  | some a_data, some a_addr, some b_data, some b_addr =>
    if a_data.value.integer_value = b_data.value.integer_value
        ∧ a_addr.value.integer_value = b_addr.value.integer_value then
      -- 3) both ports are the same size
      let mode_hash := mode_hash ++
        (".port_a_address_width\x7b" ++ int_to_decimal a_addr.value.integer_value ++ "\x7d")
      let mode_hash := mode_hash ++
        (".port_b_address_width\x7b" ++ int_to_decimal b_addr.value.integer_value ++ "\x7d")
      if find_arch_model_by_name mode_hash arch_models = none then
        Except.error (fatal.exit_1
          ("Error: could not find dual port (non-mixed_width) memory primitive \x27"
            ++ mode_hash ++ "\x27 in architecture file"))
      else Except.ok mode_hash
    else
      -- 4) mixed width dual port ram
      let tmp_mode_hash := mode_hash
      let tmp_mode_hash := tmp_mode_hash ++
        (".port_a_data_width\x7b" ++ int_to_decimal a_data.value.integer_value ++ "\x7d")
      let tmp_mode_hash := tmp_mode_hash ++
        (".port_a_address_width\x7b" ++ int_to_decimal a_addr.value.integer_value ++ "\x7d")
      let tmp_mode_hash := tmp_mode_hash ++
        (".port_b_data_width\x7b" ++ int_to_decimal b_data.value.integer_value ++ "\x7d")
      let tmp_mode_hash := tmp_mode_hash ++
        (".port_b_address_width\x7b" ++ int_to_decimal b_addr.value.integer_value ++ "\x7d")
      if find_arch_model_by_name tmp_mode_hash arch_models = none then
        Except.ok mode_hash
      else
        Except.ok tmp_mode_hash
  | _, _, _, _ =>
    -- not a memory, do nothing
    Except.ok mode_hash

/-- The function `generate_opname (vqm_node, arch_models)`. -/
def generate_opname (vqm_node : t_node) (arch_models : List t_model) : Except fatal String :=
  match scan_params vqm_node.array_of_params opname_params_init with
  | Except.error e => Except.error e
  | Except.ok found =>
    match memory_name (opmode_name vqm_node.type found.operation_mode) found arch_models with
    | Except.error e => Except.error e
    | Except.ok mode_hash =>
      -- final sanity check
      if find_arch_model_by_name mode_hash arch_models = none then
        Except.error (fatal.exit_1 ("Error: could not find primitive \x27" ++ mode_hash
          ++ "\x27 in architecture file"))
      else
        Except.ok mode_hash

/-! ## Structural validator -/

/-- The pin loop of `verify_module`:
`for (int i = 0; i < module->number_of_pins; i++)`. -/
def verify_pins : List (Option t_pin_def) → Except fatal Unit
  | [] => Except.ok ()
  | temp_pin :: rest =>
    match temp_pin with
    | none => Except.error fatal.assert_failed
    | some pin =>
      if pin.name.length > 0 then verify_pins rest
      else Except.error fatal.assert_failed

/-- The assignment loop of `verify_module`:
`for (int i = 0; i < module->number_of_assignments; i++)`. -/
def verify_assignments : List (Option t_assign) → Except fatal Unit
  | [] => Except.ok ()
  | temp_assign :: rest =>
    match temp_assign with
    | none => Except.error fatal.assert_failed
    | some assign =>
      match assign.target with
      | none => Except.error fatal.assert_failed
      | some temp_pin =>
        if assign.target_index ≥ 0 then
          if assign.target_index ≤ max temp_pin.left temp_pin.right
              ∧ assign.target_index ≥ min temp_pin.left temp_pin.right then
            verify_assignments rest
          else Except.error fatal.assert_failed
        else
          if temp_pin.left = temp_pin.right then verify_assignments rest
          else Except.error fatal.assert_failed

/-- The port loop of `verify_module`, for one node:
`for (int j = 0; j < temp_node->number_of_ports; j++)`. -/
def verify_ports : List (Option t_node_port_association) → Except fatal Unit
  | [] => Except.ok ()
  | temp_port :: rest =>
    match temp_port with
    | none => Except.error fatal.assert_failed
    | some port =>
      match port.associated_net with
      | none => Except.error fatal.assert_failed
      | some temp_pin =>
        if port.wire_index ≥ 0 then
          if port.wire_index ≤ max temp_pin.left temp_pin.right
              ∧ port.wire_index ≥ min temp_pin.left temp_pin.right then
            verify_ports rest
          else Except.error fatal.assert_failed
        else
          if temp_pin.left = temp_pin.right then verify_ports rest
          else Except.error fatal.assert_failed

/-- The node loop of `verify_module`:
`for (int i = 0; i < module->number_of_nodes; i++)`. -/
def verify_nodes : List (Option t_node) → Except fatal Unit
  | [] => Except.ok ()
  | temp_node :: rest =>
    match temp_node with
    | none => Except.error fatal.assert_failed
    | some node =>
      match verify_ports node.array_of_ports with
      | Except.error e => Except.error e
      | Except.ok _ => verify_nodes rest

/-- The function `verify_module (module)`; `Except.ok ()` is the normal return, that is, the
module is accepted. -/
def verify_module (module : Option t_module) : Except fatal Unit :=
  match module with
  | none => Except.error (fatal.exit_1 "ERROR: VQM File invalid.\n")
  | some module =>
    if module.name.length > 0 then
      match verify_pins module.array_of_pins with
      | Except.error e => Except.error e
      | Except.ok _ =>
        match verify_assignments module.array_of_assignments with
        | Except.error e => Except.error e
        | Except.ok _ => verify_nodes module.array_of_nodes
    else Except.error fatal.assert_failed

/-! ## Specification-side definitions

The definitions below are not translations of code: they say, in the words of the
specification, what the code is compared with. -/

/-- The character map of the specification of `sanitize`: the space character becomes an
underscore, every other character is passed through. -/
def sanitize_char (c : Char) : Char :=
  if c = ' ' then '_' else c

/-- The specification of `sanitize (text)`: every character of the text is mapped by
`sanitize_char`. -/
def sanitize (text : String) : String :=
  String.mk (text.data.map sanitize_char)

/-- Plain base-10 text of a natural number, most significant digit first, built from the
positional digits of the number: the single digit `0` for zero, no leading zero otherwise. -/
def decimal (n : Nat) : String :=
  String.mk (if n = 0 then ['0'] else (Nat.digits 10 n).reverse.map Nat.digitChar)

/-- The number that a string of decimal digits denotes, read from the left. -/
def decimal_value (s : String) : Nat :=
  s.data.foldl (fun acc c => 10 * acc + (c.toNat - '0'.toNat)) 0

/-- The catalog contains a model named `n`. -/
@[reducible] def in_catalog (arch_models : List t_model) (n : String) : Prop :=
  ∃ m ∈ arch_models, m.name = n

/-- Some parameter of the collection is named `n`. -/
@[reducible] def param_present (params : List t_node_parameter) (n : String) : Prop :=
  ∃ p ∈ params, p.name = n

/-- No parameter of the collection is named `n`. -/
@[reducible] def param_absent (params : List t_node_parameter) (n : String) : Prop :=
  ∀ p ∈ params, p.name ≠ n

/-- The collection contains an integer parameter `n`: a parameter named `n` is present, and
every parameter of that name is integer-typed. -/
@[reducible] def int_param_present (params : List t_node_parameter) (n : String) : Prop :=
  param_present params n
  ∧ ∀ p ∈ params, p.name = n → p.type = t_node_parameter_type.NODE_PARAMETER_INTEGER

/-- The collection contains the integer parameter `n = a`: a parameter named `n` is present,
and every parameter of that name is integer-typed with the value `a`. -/
@[reducible] def int_param (params : List t_node_parameter) (n : String) (a : Int) : Prop :=
  param_present params n
  ∧ ∀ p ∈ params, p.name = n →
      p.type = t_node_parameter_type.NODE_PARAMETER_INTEGER ∧ p.value.integer_value = a

/-- The operation mode of a parameter collection: `some v` when `operation_mode = v` is present
(a parameter of that name is present, and every parameter of that name is string-typed with the
value `v`), `none` when no parameter is named `operation_mode`. -/
@[reducible] def opmode_param (params : List t_node_parameter) : Option String → Prop
  | some v =>
    param_present params "operation_mode"
    ∧ ∀ p ∈ params, p.name = "operation_mode" →
        p.type = t_node_parameter_type.NODE_PARAMETER_STRING ∧ p.value.string_value = v
  | none => param_absent params "operation_mode"

/-- Every parameter that carries one of the four recognized width names is integer-typed. -/
@[reducible] def widths_integer (params : List t_node_parameter) : Prop :=
  ∀ p ∈ params,
    (p.name = "port_a_data_width" ∨ p.name = "port_a_address_width"
      ∨ p.name = "port_b_data_width" ∨ p.name = "port_b_address_width") →
    p.type = t_node_parameter_type.NODE_PARAMETER_INTEGER

/-- The suffix of step 3 of the specification: `.opmode` with the sanitized value in braces
when an operation mode is present, nothing otherwise. -/
def opmode_suffix : Option String → String
  | some v => ".opmode\x7b" ++ sanitize v ++ "\x7d"
  | none => ""

/-- The name of the single-port case: the candidate of step 3 followed by the port A address
width in braces (`decimal (A)` is the text that `%d` prints). -/
def single_port_name (type : String) (o : Option String) (a_addr : Int) : String :=
  type ++ opmode_suffix o ++ ".port_a_address_width\x7b" ++ int_to_decimal a_addr ++ "\x7d"

/-- The name of the symmetric dual-port case: the candidate of step 3 followed by the address
widths of port A and of port B in braces. -/
def dual_port_name (type : String) (o : Option String) (a_addr b_addr : Int) : String :=
  type ++ opmode_suffix o ++ ".port_a_address_width\x7b" ++ int_to_decimal a_addr
    ++ "\x7d.port_b_address_width\x7b" ++ int_to_decimal b_addr ++ "\x7d"

/-- The detailed name of the mixed-width dual-port case: the candidate of step 3 followed by
the data width and address width of port A, then of port B, in this order. -/
def detailed_name (type : String) (o : Option String) (a_data a_addr b_data b_addr : Int) :
    String :=
  type ++ opmode_suffix o ++ ".port_a_data_width\x7b" ++ int_to_decimal a_data
    ++ "\x7d.port_a_address_width\x7b" ++ int_to_decimal a_addr
    ++ "\x7d.port_b_data_width\x7b" ++ int_to_decimal b_data
    ++ "\x7d.port_b_address_width\x7b" ++ int_to_decimal b_addr ++ "\x7d"

/-- The parameter meets the type contract of the scan: string-typed when it is named
`operation_mode`, integer-typed when it carries one of the four width names. -/
@[reducible] def well_typed_param (p : t_node_parameter) : Prop :=
  (p.name = "operation_mode" → p.type = t_node_parameter_type.NODE_PARAMETER_STRING)
  ∧ ((p.name = "port_a_data_width" ∨ p.name = "port_a_address_width"
      ∨ p.name = "port_b_data_width" ∨ p.name = "port_b_address_width") →
    p.type = t_node_parameter_type.NODE_PARAMETER_INTEGER)

/-- The pointer that the scan leaves for the name `n`: the last parameter of that name, or what
was there before the scan when there is none. -/
def last_param (n : String) : List t_node_parameter → Option t_node_parameter →
    Option t_node_parameter
  | [], acc => acc
  | p :: rest, acc => last_param n rest (if p.name = n then some p else acc)

/-- The name is one of the five names that the parameter scan recognizes. -/
@[reducible] def recognized_name (n : String) : Prop :=
  n = "operation_mode" ∨ n = "port_a_data_width" ∨ n = "port_a_address_width"
    ∨ n = "port_b_data_width" ∨ n = "port_b_address_width"

/-- A type mismatch on a recognized name: a parameter named `operation_mode` that is not
string-typed, or a parameter with one of the four width names that is not integer-typed. -/
@[reducible] def type_mismatch (p : t_node_parameter) : Prop :=
  (p.name = "operation_mode" ∧ p.type ≠ t_node_parameter_type.NODE_PARAMETER_STRING)
  ∨ ((p.name = "port_a_data_width" ∨ p.name = "port_a_address_width"
      ∨ p.name = "port_b_data_width" ∨ p.name = "port_b_address_width")
    ∧ p.type ≠ t_node_parameter_type.NODE_PARAMETER_INTEGER)

/-- The value of a parameter that the resolver can read: the string for a parameter named
`operation_mode`, the integer for any other name. -/
def read_value (p : t_node_parameter) : String ⊕ Int :=
  if p.name = "operation_mode" then Sum.inl p.value.string_value
  else Sum.inr p.value.integer_value

/-- The index rule of the validator, in the words of the specification: a concrete bit index
(at least 0) lies within the bounds of the pin, given in either order; the whole-pin sentinel
(below 0) goes with a single-bit pin. -/
@[reducible] def valid_index (pin : t_pin_def) (index : Int) : Prop :=
  (index ≥ 0 ∧ min pin.left pin.right ≤ index ∧ index ≤ max pin.left pin.right)
    ∨ (index < 0 ∧ pin.left = pin.right)

/-- The conditions of the specification for a module to be accepted: the module is present
with a non-empty name; every pin is present with a non-empty name; every assignment is present
with a present target pin that meets the index rule; every instance is present, and each of its
port associations is present with a present associated pin that meets the index rule. -/
@[reducible] def valid_module : Option t_module → Prop
  | none => False
  | some m =>
    m.name ≠ ""
    ∧ (∀ p ∈ m.array_of_pins, ∃ pin ∈ p, pin.name ≠ "")
    ∧ (∀ a ∈ m.array_of_assignments,
        ∃ assign ∈ a, ∃ pin ∈ assign.target, valid_index pin assign.target_index)
    ∧ (∀ n ∈ m.array_of_nodes,
        ∃ node ∈ n, ∀ pa ∈ node.array_of_ports,
          ∃ port ∈ pa, ∃ pin ∈ port.associated_net, valid_index pin port.wire_index)

/-- The module has an assignment to the pin `pin` with the target index `index`. -/
@[reducible] def assignment_entry (m : t_module) (pin : t_pin_def) (index : Int) : Prop :=
  ∃ assign, some assign ∈ m.array_of_assignments
    ∧ assign.target = some pin ∧ assign.target_index = index

/-- Some instance of the module has a port association with the pin `pin` and the wire index
`index`. -/
@[reducible] def port_entry (m : t_module) (pin : t_pin_def) (index : Int) : Prop :=
  ∃ node port, some node ∈ m.array_of_nodes ∧ some port ∈ node.array_of_ports
    ∧ port.associated_net = some pin ∧ port.wire_index = index

/-- The pair `(pin, index)` is taken from an assignment or from a port association of the
module. -/
@[reducible] def module_entry (m : t_module) (pin : t_pin_def) (index : Int) : Prop :=
  assignment_entry m pin index ∨ port_entry m pin index

/-- The bounds invariant that the data model of the specification states for an Assignment and
a Port Association, with -1 as the whole-pin sentinel: a concrete index lies within the bounds
of the pin and the pin is multi-bit; the sentinel goes with a single-bit pin. -/
@[reducible] def data_model_invariant (pin : t_pin_def) (index : Int) : Prop :=
  (index ≠ -1 →
    (min pin.left pin.right ≤ index ∧ index ≤ max pin.left pin.right) ∧ pin.left ≠ pin.right)
  ∧ (index = -1 → pin.left = pin.right)

/-! ## Example instances -/

/-- A single-port memory: operation mode `single_port`, port A data width 8 and address
width 7, no port B parameter. -/
def ram_single_port : t_node :=
  { type := "ram",
    array_of_params :=
      [⟨"operation_mode", t_node_parameter_type.NODE_PARAMETER_STRING, ⟨"single_port", 0⟩⟩,
       ⟨"port_a_data_width", t_node_parameter_type.NODE_PARAMETER_INTEGER, ⟨"", 8⟩⟩,
       ⟨"port_a_address_width", t_node_parameter_type.NODE_PARAMETER_INTEGER, ⟨"", 7⟩⟩],
    array_of_ports := [] }

/-- A symmetric dual-port memory: operation mode `dual_port`, widths 8/5 on both ports. -/
def ram_dual_port : t_node :=
  { type := "ram",
    array_of_params :=
      [⟨"operation_mode", t_node_parameter_type.NODE_PARAMETER_STRING, ⟨"dual_port", 0⟩⟩,
       ⟨"port_a_data_width", t_node_parameter_type.NODE_PARAMETER_INTEGER, ⟨"", 8⟩⟩,
       ⟨"port_a_address_width", t_node_parameter_type.NODE_PARAMETER_INTEGER, ⟨"", 5⟩⟩,
       ⟨"port_b_data_width", t_node_parameter_type.NODE_PARAMETER_INTEGER, ⟨"", 8⟩⟩,
       ⟨"port_b_address_width", t_node_parameter_type.NODE_PARAMETER_INTEGER, ⟨"", 5⟩⟩],
    array_of_ports := [] }

/-- A mixed-width dual-port memory: operation mode `dual_port`, widths 8/5 on port A and
16/4 on port B. -/
def ram_mixed_width : t_node :=
  { type := "ram",
    array_of_params :=
      [⟨"operation_mode", t_node_parameter_type.NODE_PARAMETER_STRING, ⟨"dual_port", 0⟩⟩,
       ⟨"port_a_data_width", t_node_parameter_type.NODE_PARAMETER_INTEGER, ⟨"", 8⟩⟩,
       ⟨"port_a_address_width", t_node_parameter_type.NODE_PARAMETER_INTEGER, ⟨"", 5⟩⟩,
       ⟨"port_b_data_width", t_node_parameter_type.NODE_PARAMETER_INTEGER, ⟨"", 16⟩⟩,
       ⟨"port_b_address_width", t_node_parameter_type.NODE_PARAMETER_INTEGER, ⟨"", 4⟩⟩],
    array_of_ports := [] }

/-- A block with an operation mode that holds a space and three of the four width
parameters. -/
def ram_three_widths : t_node :=
  { type := "ram",
    array_of_params :=
      [⟨"port_a_data_width", t_node_parameter_type.NODE_PARAMETER_INTEGER, ⟨"", 8⟩⟩,
       ⟨"operation_mode", t_node_parameter_type.NODE_PARAMETER_STRING, ⟨"dual port", 0⟩⟩,
       ⟨"port_a_address_width", t_node_parameter_type.NODE_PARAMETER_INTEGER, ⟨"", 5⟩⟩,
       ⟨"port_b_data_width", t_node_parameter_type.NODE_PARAMETER_INTEGER, ⟨"", 8⟩⟩],
    array_of_ports := [] }

/-- A block without any recognized parameter. -/
def lcell_comb : t_node :=
  { type := "stratixiv_lcell_comb",
    array_of_params :=
      [⟨"lut_mask", t_node_parameter_type.NODE_PARAMETER_STRING, ⟨"AAAA", 0⟩⟩],
    array_of_ports := [] }

/-- An eight-bit bus `data[7:0]`. -/
def pin_data : t_pin_def := ⟨"data", t_boolean.T_TRUE, 7, 0⟩

/-- A wire `clk` (not indexed, bounds 0 and 0). -/
def pin_clk : t_pin_def := ⟨"clk", t_boolean.T_FALSE, 0, 0⟩

/-- A one-bit indexed pin `q[0:0]`. -/
def pin_q : t_pin_def := ⟨"q", t_boolean.T_TRUE, 0, 0⟩

/-- A one-bit indexed pin `w[2:2]`. -/
def pin_w : t_pin_def := ⟨"w", t_boolean.T_TRUE, 2, 2⟩

/-- A one-bit indexed pin with negative bounds, `v[-3:-3]`. -/
def pin_v : t_pin_def := ⟨"v", t_boolean.T_TRUE, -3, -3⟩

/-- A module that meets every condition of the validator: an assignment to bit 3 of the bus,
an assignment to the whole wire, and an instance connected to bit 7 and to the wire. -/
def module_ok : t_module :=
  { name := "top",
    array_of_pins := [some pin_data, some pin_clk],
    array_of_assignments := [some ⟨some pin_data, 3⟩, some ⟨some pin_clk, -1⟩],
    array_of_nodes :=
      [some ⟨"stratixiv_lcell_comb", [], [some ⟨some pin_data, 7⟩, some ⟨some pin_clk, -1⟩]⟩] }

/-- A module with an assignment to bit 10 of the bus `data[7:0]`. -/
def module_out_of_bounds : t_module :=
  { name := "top",
    array_of_pins := [some pin_data],
    array_of_assignments := [some ⟨some pin_data, 3⟩, some ⟨some pin_data, 10⟩],
    array_of_nodes := [] }

/-- A module with an instance connected to the whole bus `data[7:0]`. -/
def module_whole_bus : t_module :=
  { name := "top",
    array_of_pins := [some pin_data],
    array_of_assignments := [],
    array_of_nodes := [some ⟨"stratixiv_lcell_comb", [], [some ⟨some pin_data, -1⟩]⟩] }

/-- A module with an assignment to bit 0 of the one-bit pin `q[0:0]`. -/
def module_single_bit : t_module :=
  { name := "top",
    array_of_pins := [some pin_q],
    array_of_assignments := [some ⟨some pin_q, 0⟩],
    array_of_nodes := [] }

/-- A module with an assignment of index -2 to the one-bit pin `w[2:2]`, and an instance
connected, with index -1, to the one-bit pin `v[-3:-3]`. -/
def module_negative : t_module :=
  { name := "top",
    array_of_pins := [some pin_w, some pin_v],
    array_of_assignments := [some ⟨some pin_w, -2⟩],
    array_of_nodes := [some ⟨"stratixiv_lcell_comb", [], [some ⟨some pin_v, -1⟩]⟩] }

/-- A block whose parameter `port_a_address_width` occurs twice, with the values 7 and 9. -/
def ram_repeated : t_node :=
  { type := "ram",
    array_of_params :=
      [⟨"port_a_data_width", t_node_parameter_type.NODE_PARAMETER_INTEGER, ⟨"", 8⟩⟩,
       ⟨"port_a_address_width", t_node_parameter_type.NODE_PARAMETER_INTEGER, ⟨"", 7⟩⟩,
       ⟨"port_a_address_width", t_node_parameter_type.NODE_PARAMETER_INTEGER, ⟨"", 9⟩⟩],
    array_of_ports := [] }

/-- The block `ram_repeated` with its last two parameters exchanged. -/
def ram_repeated_permuted : t_node :=
  { type := "ram",
    array_of_params :=
      [⟨"port_a_data_width", t_node_parameter_type.NODE_PARAMETER_INTEGER, ⟨"", 8⟩⟩,
       ⟨"port_a_address_width", t_node_parameter_type.NODE_PARAMETER_INTEGER, ⟨"", 9⟩⟩,
       ⟨"port_a_address_width", t_node_parameter_type.NODE_PARAMETER_INTEGER, ⟨"", 7⟩⟩],
    array_of_ports := [] }

/-- A block whose `operation_mode` parameter is integer-typed. -/
def ram_mistyped : t_node :=
  { type := "ram",
    array_of_params :=
      [⟨"port_a_data_width", t_node_parameter_type.NODE_PARAMETER_INTEGER, ⟨"", 8⟩⟩,
       ⟨"operation_mode", t_node_parameter_type.NODE_PARAMETER_INTEGER, ⟨"", 1⟩⟩],
    array_of_ports := [] }

end Vqm2Blif

namespace Vqm2Blif

/-! ## The sanitizer: the loop against its specification -/

/-- Invariant of the loop of `clean_name`, read position by position: what lies before `p` is
left as it is, what lies from `p` on is mapped by `sanitize_char`. -/
theorem clean_name_loop_getElem? (name : List Char) (p : Nat) (i : Nat) :
    (clean_name_loop name p)[i]? =
      if i < p then name[i]? else name[i]?.map sanitize_char := by
  induction name, p using clean_name_loop.induct with
  | case1 name p h hsp ih =>
    rw [clean_name_loop]
    simp only [h, hsp, dite_true, ite_true, ih]
    rcases Nat.lt_trichotomy i p with hlt | heq | hgt
    · have h1 : i < p + 1 := by omega
      have h2 : p ≠ i := by omega
      simp [hlt, h1, List.getElem?_set, h2]
    · subst heq
      simp [List.getElem?_set, h, hsp, sanitize_char]
    · have h1 : ¬ i < p + 1 := by omega
      have h2 : ¬ i < p := by omega
      have h3 : p ≠ i := by omega
      simp [h1, h2, List.getElem?_set, h3]
  | case2 name p h hsp ih =>
    rw [clean_name_loop]
    simp only [h, hsp, dite_true, ite_false, ih]
    rcases Nat.lt_trichotomy i p with hlt | heq | hgt
    · have h1 : i < p + 1 := by omega
      simp [hlt, h1]
    · subst heq
      simp [h, hsp, sanitize_char]
    · have h1 : ¬ i < p + 1 := by omega
      have h2 : ¬ i < p := by omega
      simp [h1, h2]
  | case3 name p h =>
    rw [clean_name_loop]
    simp only [h, dite_false]
    by_cases hi : i < p
    · simp [hi]
    · have hnone : name[i]? = none := List.getElem?_eq_none (by omega)
      simp [hi, hnone]

/-- The loop of `clean_name` started at position 0 maps the whole string. -/
theorem clean_name_loop_zero (name : List Char) :
    clean_name_loop name 0 = name.map sanitize_char := by
  apply List.ext_getElem?
  intro i
  rw [clean_name_loop_getElem?]
  simp

/-- The sanitizer computes the specified character map. -/
theorem clean_name_eq_sanitize (name : String) : clean_name name = sanitize name := by
  simp [clean_name, sanitize, clean_name_loop_zero]

theorem sanitize_char_ne_space (c : Char) : sanitize_char c ≠ ' ' := by
  unfold sanitize_char
  split
  · decide
  · assumption

theorem sanitize_char_of_ne_space (c : Char) (h : c ≠ ' ') : sanitize_char c = c := by
  simp [sanitize_char, h]

/-- C7. `clean_name` (sanitize) is a total function that equals the character-wise map sending
the space character to an underscore and every other character to itself: the result has the
length of the input, contains no space, agrees with the input at every position that holds a
non-space character, and is the input itself when the input has no space. -/
theorem clean_name_spec (s : String) :
    clean_name s = sanitize s
    ∧ (clean_name s).length = s.length
    ∧ ' ' ∉ (clean_name s).data
    ∧ (∀ (i : Nat) (c : Char), s.data[i]? = some c → c ≠ ' ' → (clean_name s).data[i]? = some c)
    ∧ (' ' ∉ s.data → clean_name s = s) := by
  refine ⟨clean_name_eq_sanitize s, ?_, ?_, ?_, ?_⟩
  · rw [clean_name_eq_sanitize]
    show (s.data.map sanitize_char).length = s.data.length
    exact List.length_map _ _
  · simp only [clean_name_eq_sanitize, sanitize, List.mem_map, not_exists, not_and]
    intro c _
    exact sanitize_char_ne_space c
  · intro i c hc hne
    rw [clean_name_eq_sanitize]
    show (s.data.map sanitize_char)[i]? = some c
    rw [List.getElem?_map, hc, Option.map_some', sanitize_char_of_ne_space c hne]
  · intro hns
    rw [clean_name_eq_sanitize]
    have hmap : s.data.map sanitize_char = s.data := by
      conv_rhs => rw [← List.map_id s.data]
      apply List.map_congr_left
      intro c hc
      have hne : c ≠ ' ' := fun h => hns (h ▸ hc)
      simp [sanitize_char_of_ne_space c hne]
    show String.mk (s.data.map sanitize_char) = s
    rw [hmap]

/-- C7 at concrete inputs: a string with spaces, and the empty string. -/
theorem clean_name_spec_witness :
    clean_name "single port ram" = "single_port_ram"
    ∧ (clean_name "a b").data[0]? = some 'a'
    ∧ clean_name "" = "" :=
  ⟨(clean_name_spec "single port ram").1.trans (by decide),
   (clean_name_spec "a b").2.2.2.1 0 'a' (by decide) (by decide),
   (clean_name_spec "").2.2.2.2 (by decide)⟩

/-! ## Integer formatting: the printed text against positional digits -/

theorem digitChar_toNat (d : Nat) (h : d < 10) : (Nat.digitChar d).toNat - '0'.toNat = d := by
  interval_cases d <;> rfl

theorem digitChar_isDigit (d : Nat) (h : d < 10) : (Nat.digitChar d).isDigit = true := by
  interval_cases d <;> rfl

theorem digitChar_eq_zero (d : Nat) (h : d < 10) (h0 : Nat.digitChar d = '0') : d = 0 := by
  interval_cases d <;> first | rfl | (exact absurd h0 (by decide))

/-- The digit loop of the library, given enough fuel, prepends the decimal text. -/
theorem toDigitsCore_eq_decimal (fuel : Nat) :
    ∀ (n : Nat) (ds : List Char), n < fuel →
      Nat.toDigitsCore 10 fuel n ds = (decimal n).data ++ ds := by
  induction fuel with
  | zero => intro n ds h; omega
  | succ fuel ih =>
    intro n ds h
    rw [Nat.toDigitsCore]
    by_cases hq : n / 10 = 0
    · simp only [hq, if_true]
      have hlt : n < 10 := by omega
      by_cases h0 : n = 0
      · subst h0
        simp only [decimal, if_true]
        rfl
      · have hmod : n % 10 = n := Nat.mod_eq_of_lt hlt
        simp [decimal, h0, Nat.digits_of_lt 10 n h0 hlt, hmod]
    · simp only [hq, if_false]
      have hpos : 0 < n := by omega
      have hlt : n / 10 < fuel := by omega
      rw [ih (n / 10) _ hlt]
      have hn0 : n ≠ 0 := by omega
      simp [decimal, hq, hn0, Nat.digits_def' (by decide : 1 < 10) hpos]

/-- The library rendering of a natural number is its plain base-10 text. -/
theorem repr_eq_decimal (n : Nat) : Nat.repr n = decimal n := by
  show String.mk (Nat.toDigitsCore 10 (n + 1) n []) = decimal n
  rw [toDigitsCore_eq_decimal (n + 1) n [] (by omega)]
  simp

/-- A non-negative `int` is printed as the plain base-10 text of its value. -/
theorem int_to_decimal_of_nonneg (z : Int) (h : 0 ≤ z) : int_to_decimal z = decimal z.toNat := by
  cases z with
  | ofNat n => exact repr_eq_decimal n
  | negSucc n => exact absurd h (by simp)

/-- The text of a 32-bit `int` has at most 11 characters. -/
theorem int_to_decimal_length (z : Int) (hlo : -2147483648 ≤ z) (hhi : z ≤ 2147483647) :
    (int_to_decimal z).length ≤ 11 := by
  cases z with
  | ofNat n =>
    have hn : n < 10 ^ 10 := by
      have : (n : Int) ≤ 2147483647 := hhi
      omega
    have := Nat.repr_length n 10 (by decide) hn
    show (Nat.repr n).length ≤ 11
    omega
  | negSucc n =>
    have hn : n + 1 < 10 ^ 10 := by
      have : Int.negSucc n = -((n : Int) + 1) := rfl
      omega
    have := Nat.repr_length (n + 1) 10 (by decide) hn
    show ("-" ++ Nat.repr (n + 1)).length ≤ 11
    rw [String.length_append]
    have h1 : ("-" : String).length = 1 := by decide
    omega

theorem foldl_digits_eq_ofDigits (l : List Nat) (hl : ∀ d ∈ l, d < 10) :
    (l.reverse.map Nat.digitChar).foldl (fun acc c => 10 * acc + (c.toNat - '0'.toNat)) 0
      = Nat.ofDigits 10 l := by
  induction l with
  | nil => simp
  | cons d t ih =>
    have hd : d < 10 := hl d (by simp)
    have ht : ∀ x ∈ t, x < 10 := fun x hx => hl x (by simp [hx])
    simp only [List.reverse_cons, List.map_append, List.map_cons, List.map_nil,
      List.foldl_append, List.foldl_cons, List.foldl_nil, ih ht, digitChar_toNat d hd]
    rw [Nat.ofDigits_cons]
    omega

/-- Reading the plain base-10 text of a number gives the number back. -/
theorem decimal_value_decimal (n : Nat) : decimal_value (decimal n) = n := by
  by_cases h0 : n = 0
  · subst h0
    simp [decimal, decimal_value]
  · simp only [decimal, decimal_value, h0, if_false]
    rw [foldl_digits_eq_ofDigits _ (fun d hd => Nat.digits_lt_base (by decide) hd)]
    exact Nat.ofDigits_digits 10 n

/-- The plain base-10 text consists of digits only (in particular it carries no sign). -/
theorem decimal_all_digits (n : Nat) : ∀ c ∈ (decimal n).data, c.isDigit = true := by
  intro c hc
  by_cases h0 : n = 0
  · subst h0
    simp [decimal] at hc
    subst hc
    rfl
  · simp only [decimal, h0, if_false, List.mem_map, List.mem_reverse] at hc
    obtain ⟨d, hd, rfl⟩ := hc
    exact digitChar_isDigit d (Nat.digits_lt_base (by decide) hd)

/-- The plain base-10 text has no leading zero: it starts with `0` only for the number zero. -/
theorem decimal_no_leading_zero (n : Nat) (h : (decimal n).data.head? = some '0') : n = 0 := by
  by_contra h0
  simp only [decimal, h0, if_false] at h
  have hne : Nat.digits 10 n ≠ [] := Nat.digits_ne_nil_iff_ne_zero.mpr h0
  have hlast := Nat.getLast_digit_ne_zero 10 h0
  have hmem : (Nat.digits 10 n).getLast hne ∈ Nat.digits 10 n := List.getLast_mem hne
  have hlt : (Nat.digits 10 n).getLast hne < 10 := Nat.digits_lt_base (by decide) hmem
  rw [List.head?_map, List.head?_reverse, List.getLast?_eq_getLast _ hne] at h
  simp only [Option.map_some', Option.some.injEq] at h
  exact hlast (digitChar_eq_zero _ hlt h)

/-! ## Net / bus name resolution -/

theorem append_index_to_str_of_nonneg (busname : String) (index : Int) (h : 0 ≤ index) :
    append_index_to_str busname index
      = Except.ok (busname ++ "[" ++ decimal index.toNat ++ "]") := by
  have hn : ¬ index < 0 := by omega
  simp [append_index_to_str, hn, int_to_decimal_of_nonneg index h]

theorem append_index_to_str_of_neg (busname : String) (index : Int) (h : index < 0) :
    append_index_to_str busname index
      = Except.error (fatal.exit_1
          ("PARSER ERROR: Cannot append " ++ int_to_decimal index ++ " as index.\n")) := by
  simp [append_index_to_str, h]

theorem indexed_of_ne_false (b : t_boolean) (h : b ≠ t_boolean.T_FALSE) :
    b = t_boolean.T_TRUE := by
  cases b
  · exact absurd rfl h
  · rfl

/-- C8. For a pin that is not indexed, `get_wire_name` (resolve_name) succeeds and returns the
name of the pin verbatim, for every integer index and whatever the bounds of the pin are. -/
theorem get_wire_name_not_indexed (net : t_pin_def) (index : Int)
    (h : net.indexed = t_boolean.T_FALSE) :
    get_wire_name net index = Except.ok net.name := by
  unfold get_wire_name
  rw [if_pos h]

/-- C8 at concrete inputs: the sentinel, another negative index, and an index outside the
bounds of the pin. -/
theorem get_wire_name_not_indexed_witness :
    get_wire_name ⟨"clk", t_boolean.T_FALSE, 3, 0⟩ (-1) = Except.ok "clk"
    ∧ get_wire_name ⟨"clk", t_boolean.T_FALSE, 3, 0⟩ (-7) = Except.ok "clk"
    ∧ get_wire_name ⟨"clk", t_boolean.T_FALSE, 3, 0⟩ 100 = Except.ok "clk" :=
  ⟨get_wire_name_not_indexed ⟨"clk", t_boolean.T_FALSE, 3, 0⟩ (-1) rfl,
   get_wire_name_not_indexed ⟨"clk", t_boolean.T_FALSE, 3, 0⟩ (-7) rfl,
   get_wire_name_not_indexed ⟨"clk", t_boolean.T_FALSE, 3, 0⟩ 100 rfl⟩

/-- C9. Bracket formatting for an indexed pin: (a) with the index -1, equal bounds and a
non-negative left bound, `get_wire_name` returns the name followed by the left bound in
brackets; (b) with an index that is not negative it returns the name followed by that index in
brackets, whatever the bounds are.  The number between the brackets is the plain base-10 text:
digits only (no sign), no leading zero, and it reads back as the number. -/
theorem get_wire_name_indexed (net : t_pin_def) (index : Int)
    (hidx : net.indexed = t_boolean.T_TRUE) :
    (index = -1 → net.left = net.right → 0 ≤ net.left →
      get_wire_name net index = Except.ok (net.name ++ "[" ++ decimal net.left.toNat ++ "]"))
    ∧ (0 ≤ index →
      get_wire_name net index = Except.ok (net.name ++ "[" ++ decimal index.toNat ++ "]"))
    ∧ (∀ k : Nat, (∀ c ∈ (decimal k).data, c.isDigit = true)
        ∧ ((decimal k).data.head? = some '0' → k = 0)
        ∧ decimal_value (decimal k) = k) := by
  refine ⟨?_, ?_, ?_⟩
  · intro hm1 hlr hleft
    simp [get_wire_name, hidx, hm1, hlr]
    rw [← hlr]
    exact append_index_to_str_of_nonneg net.name net.left hleft
  · intro hnn
    have hne : index ≠ -1 := by omega
    simp [get_wire_name, hidx, hne]
    exact append_index_to_str_of_nonneg net.name index hnn
  · intro k
    exact ⟨decimal_all_digits k, decimal_no_leading_zero k, decimal_value_decimal k⟩

/-- C9 at concrete inputs: the indexed pin `a` with both bounds 15 and the index -1, and a bit
of a bus chosen outside its bounds. -/
theorem get_wire_name_indexed_witness :
    get_wire_name ⟨"a", t_boolean.T_TRUE, 15, 15⟩ (-1) = Except.ok "a[15]"
    ∧ get_wire_name ⟨"data", t_boolean.T_TRUE, 7, 0⟩ 12 = Except.ok "data[12]" :=
  ⟨((get_wire_name_indexed ⟨"a", t_boolean.T_TRUE, 15, 15⟩ (-1) rfl).1 rfl rfl
      (by decide)).trans (by rw [← repr_eq_decimal]; decide),
   ((get_wire_name_indexed ⟨"data", t_boolean.T_TRUE, 7, 0⟩ 12 rfl).2.1
      (by decide)).trans (by rw [← repr_eq_decimal]; decide)⟩

/-- C10. `get_wire_name` (resolve_name) fails exactly when the pin is indexed and either the
index is -1 with different bounds (the single-bit assertion), or the index is -1 with equal
negative bounds (a negative index is appended), or the index is below -1 (a negative index is
appended); in every other case it returns a name.  `append_index_to_str` fails exactly on a
negative index. -/
theorem get_wire_name_fails_iff (net : t_pin_def) (index : Int) :
    ((∃ e, get_wire_name net index = Except.error e) ↔
      net.indexed = t_boolean.T_TRUE ∧
        ((index = -1 ∧ net.left ≠ net.right)
          ∨ (index = -1 ∧ net.left = net.right ∧ net.left < 0)
          ∨ index < -1))
    ∧ (¬ (net.indexed = t_boolean.T_TRUE ∧
        ((index = -1 ∧ net.left ≠ net.right)
          ∨ (index = -1 ∧ net.left = net.right ∧ net.left < 0)
          ∨ index < -1)) →
        ∃ s, get_wire_name net index = Except.ok s)
    ∧ (net.indexed = t_boolean.T_TRUE → index = -1 → net.left ≠ net.right →
        get_wire_name net index = Except.error fatal.assert_failed)
    ∧ (net.indexed = t_boolean.T_TRUE → index = -1 → net.left = net.right → net.left < 0 →
        get_wire_name net index = Except.error (fatal.exit_1
          ("PARSER ERROR: Cannot append " ++ int_to_decimal net.left ++ " as index.\n")))
    ∧ (net.indexed = t_boolean.T_TRUE → index < -1 →
        get_wire_name net index = Except.error (fatal.exit_1
          ("PARSER ERROR: Cannot append " ++ int_to_decimal index ++ " as index.\n")))
    ∧ (∀ (busname : String) (k : Int),
        (∃ e, append_index_to_str busname k = Except.error e) ↔ k < 0) := by
  have happ : ∀ (busname : String) (k : Int),
      (∃ e, append_index_to_str busname k = Except.error e) ↔ k < 0 := by
    intro busname k
    by_cases hk : k < 0
    · simp [append_index_to_str, hk]
    · simp [append_index_to_str, hk]
  have hassert : net.indexed = t_boolean.T_TRUE → index = -1 → net.left ≠ net.right →
      get_wire_name net index = Except.error fatal.assert_failed := by
    intro hi hm hne
    simp [get_wire_name, hi, hm, hne]
  have hneg1 : net.indexed = t_boolean.T_TRUE → index = -1 → net.left = net.right →
      net.left < 0 → get_wire_name net index = Except.error (fatal.exit_1
          ("PARSER ERROR: Cannot append " ++ int_to_decimal net.left ++ " as index.\n")) := by
    intro hi hm heq hlt
    simp only [get_wire_name, hi, hm, heq, if_true]
    rw [← heq]
    simpa using append_index_to_str_of_neg net.name net.left hlt
  have hneg2 : net.indexed = t_boolean.T_TRUE → index < -1 →
      get_wire_name net index = Except.error (fatal.exit_1
          ("PARSER ERROR: Cannot append " ++ int_to_decimal index ++ " as index.\n")) := by
    intro hi hlt
    have hne : index ≠ -1 := by omega
    simp only [get_wire_name, hi, hne, if_false]
    simpa using append_index_to_str_of_neg net.name index (by omega)
  have hiff : (∃ e, get_wire_name net index = Except.error e) ↔
      net.indexed = t_boolean.T_TRUE ∧
        ((index = -1 ∧ net.left ≠ net.right)
          ∨ (index = -1 ∧ net.left = net.right ∧ net.left < 0)
          ∨ index < -1) := by
    constructor
    · rintro ⟨e, he⟩
      by_cases hi : net.indexed = t_boolean.T_FALSE
      · rw [get_wire_name_not_indexed net index hi] at he
        cases he
      · refine ⟨indexed_of_ne_false _ hi, ?_⟩
        by_cases hm : index = -1
        · by_cases hlr : net.left = net.right
          · right; left
            refine ⟨hm, hlr, ?_⟩
            simp only [get_wire_name, hi, hm, hlr, if_true, if_false] at he
            exact (happ net.name net.right).mp ⟨e, he⟩ |> fun h => by rw [hlr]; exact h
          · left; exact ⟨hm, hlr⟩
        · right; right
          simp only [get_wire_name, hi, hm, if_false] at he
          have := (happ net.name index).mp ⟨e, he⟩
          omega
    · rintro ⟨hi, h | h | h⟩
      · exact ⟨_, hassert hi h.1 h.2⟩
      · exact ⟨_, hneg1 hi h.1 h.2.1 h.2.2⟩
      · exact ⟨_, hneg2 hi h⟩
  refine ⟨hiff, ?_, hassert, hneg1, hneg2, happ⟩
  intro hnot
  cases hres : get_wire_name net index with
  | ok s => exact ⟨s, rfl⟩
  | error e => exact absurd (hiff.mp ⟨e, hres⟩) hnot

/-- C10 at concrete inputs: the three failing cases and two succeeding ones. -/
theorem get_wire_name_fails_iff_witness :
    get_wire_name ⟨"bus", t_boolean.T_TRUE, 7, 0⟩ (-1) = Except.error fatal.assert_failed
    ∧ get_wire_name ⟨"w", t_boolean.T_TRUE, -3, -3⟩ (-1)
        = Except.error (fatal.exit_1 "PARSER ERROR: Cannot append -3 as index.\n")
    ∧ get_wire_name ⟨"w", t_boolean.T_TRUE, 2, 2⟩ (-2)
        = Except.error (fatal.exit_1 "PARSER ERROR: Cannot append -2 as index.\n")
    ∧ (∃ s, get_wire_name ⟨"bus", t_boolean.T_TRUE, 7, 0⟩ 9 = Except.ok s)
    ∧ (∃ e, append_index_to_str "bus" (-1) = Except.error e) :=
  ⟨(get_wire_name_fails_iff ⟨"bus", t_boolean.T_TRUE, 7, 0⟩ (-1)).2.2.1 rfl rfl (by decide),
   (get_wire_name_fails_iff ⟨"w", t_boolean.T_TRUE, -3, -3⟩ (-1)).2.2.2.1 rfl rfl rfl
      (by decide),
   (get_wire_name_fails_iff ⟨"w", t_boolean.T_TRUE, 2, 2⟩ (-2)).2.2.2.2.1 rfl (by decide),
   (get_wire_name_fails_iff ⟨"bus", t_boolean.T_TRUE, 7, 0⟩ 9).2.1 (by decide),
   ((get_wire_name_fails_iff ⟨"bus", t_boolean.T_TRUE, 7, 0⟩ 9).2.2.2.2.2 "bus" (-1)).mpr
      (by decide)⟩

/-! ## Architecture catalog lookup -/

theorem find_arch_model_by_name_some (model_name : String) (arch_models : List t_model)
    (m : t_model) (h : find_arch_model_by_name model_name arch_models = some m) :
    m ∈ arch_models ∧ m.name = model_name := by
  induction arch_models with
  | nil => simp [find_arch_model_by_name] at h
  | cons a next ih =>
    rw [find_arch_model_by_name] at h
    by_cases hn : model_name = a.name
    · simp only [hn, if_true, Option.some.injEq] at h
      subst h
      exact ⟨List.mem_cons_self _ _, hn.symm⟩
    · simp only [hn, if_false] at h
      exact ⟨List.mem_cons_of_mem _ (ih h).1, (ih h).2⟩

theorem find_arch_model_by_name_eq_none (model_name : String) (arch_models : List t_model) :
    find_arch_model_by_name model_name arch_models = none ↔ ¬ in_catalog arch_models model_name := by
  induction arch_models with
  | nil => simp [find_arch_model_by_name, in_catalog]
  | cons a next ih =>
    rw [find_arch_model_by_name]
    by_cases hn : model_name = a.name
    · simp only [hn, if_true, in_catalog]
      simp
    · simp only [hn, if_false, ih, in_catalog, List.mem_cons]
      constructor
      · rintro h ⟨m, hm | hm, hname⟩
        · subst hm
          exact hn hname.symm
        · exact h ⟨m, hm, hname⟩
      · rintro h ⟨m, hm, hname⟩
        exact h ⟨m, Or.inr hm, hname⟩

/-! ## The parameter scan -/

theorem scan_param_ok (found : opname_params) (p : t_node_parameter) (h : well_typed_param p) :
    scan_param found p = Except.ok
      { operation_mode := if p.name = "operation_mode" then some p else found.operation_mode,
        port_a_data_width :=
          if p.name = "port_a_data_width" then some p else found.port_a_data_width,
        port_a_addr_width :=
          if p.name = "port_a_address_width" then some p else found.port_a_addr_width,
        port_b_data_width :=
          if p.name = "port_b_data_width" then some p else found.port_b_data_width,
        port_b_addr_width :=
          if p.name = "port_b_address_width" then some p else found.port_b_addr_width } := by
  obtain ⟨hs, hi⟩ := h
  unfold scan_param
  by_cases h1 : p.name = "operation_mode"
  · simp [h1, hs h1]
  by_cases h2 : p.name = "port_a_data_width"
  · simp [h2, hi (Or.inl h2)]
  by_cases h3 : p.name = "port_a_address_width"
  · simp [h3, hi (Or.inr (Or.inl h3))]
  by_cases h4 : p.name = "port_b_data_width"
  · simp [h4, hi (Or.inr (Or.inr (Or.inl h4)))]
  by_cases h5 : p.name = "port_b_address_width"
  · simp [h5, hi (Or.inr (Or.inr (Or.inr h5)))]
  · simp [h1, h2, h3, h4, h5]

/-- On parameters that meet the type contract the scan succeeds, and leaves for each recognized
name the last parameter of that name. -/
theorem scan_params_ok (params : List t_node_parameter) :
    ∀ (found : opname_params), (∀ p ∈ params, well_typed_param p) →
      scan_params params found = Except.ok
        { operation_mode := last_param "operation_mode" params found.operation_mode,
          port_a_data_width := last_param "port_a_data_width" params found.port_a_data_width,
          port_a_addr_width := last_param "port_a_address_width" params found.port_a_addr_width,
          port_b_data_width := last_param "port_b_data_width" params found.port_b_data_width,
          port_b_addr_width :=
            last_param "port_b_address_width" params found.port_b_addr_width } := by
  induction params with
  | nil => intro found _; rfl
  | cons p rest ih =>
    intro found h
    have hp : well_typed_param p := h p (List.mem_cons_self _ _)
    have hrest : ∀ q ∈ rest, well_typed_param q := fun q hq => h q (List.mem_cons_of_mem _ hq)
    rw [scan_params, scan_param_ok found p hp]
    simp only [ih _ hrest, last_param]

theorem last_param_absent (n : String) (params : List t_node_parameter) :
    ∀ (acc : Option t_node_parameter), param_absent params n → last_param n params acc = acc := by
  induction params with
  | nil => intro acc _; rfl
  | cons p rest ih =>
    intro acc h
    have hp : p.name ≠ n := h p (List.mem_cons_self _ _)
    have hrest : param_absent rest n := fun q hq => h q (List.mem_cons_of_mem _ hq)
    simp [last_param, hp, ih _ hrest]

theorem last_param_mem (n : String) (params : List t_node_parameter) :
    ∀ (acc : Option t_node_parameter), param_present params n →
      ∃ p ∈ params, p.name = n ∧ last_param n params acc = some p := by
  induction params with
  | nil =>
    intro acc h
    obtain ⟨p, hp, _⟩ := h
    simp at hp
  | cons p rest ih =>
    intro acc _
    by_cases hrest : param_present rest n
    · obtain ⟨q, hq, hqn, hlast⟩ := ih (if p.name = n then some p else acc) hrest
      exact ⟨q, List.mem_cons_of_mem _ hq, hqn, by simp [last_param, hlast]⟩
    · have habs : param_absent rest n := fun q hq hqn => hrest ⟨q, hq, hqn⟩
      have hp : p.name = n := by
        rename_i h
        obtain ⟨q, hq, hqn⟩ := h
        rcases List.mem_cons.mp hq with rfl | hq
        · exact hqn
        · exact absurd hqn (habs q hq)
      refine ⟨p, List.mem_cons_self _ _, hp, ?_⟩
      simp [last_param, hp, last_param_absent n rest _ habs]

theorem opmode_param_well_typed (params : List t_node_parameter) (o : Option String)
    (ho : opmode_param params o) :
    ∀ p ∈ params, p.name = "operation_mode" →
      p.type = t_node_parameter_type.NODE_PARAMETER_STRING := by
  intro p hp hn
  cases o with
  | none => exact absurd hn (ho p hp)
  | some v => exact (ho.2 p hp hn).1

/-- Step 1 of `generate_opname` builds the candidate of step 3 of the specification. -/
theorem opmode_name_eq (type : String) (params : List t_node_parameter) (o : Option String)
    (ho : opmode_param params o) :
    opmode_name type (last_param "operation_mode" params none) = type ++ opmode_suffix o := by
  cases o with
  | none =>
    rw [last_param_absent "operation_mode" params none ho]
    simp [opmode_name, opmode_suffix]
  | some v =>
    obtain ⟨p, hp, hn, hlast⟩ := last_param_mem "operation_mode" params none ho.1
    rw [hlast]
    simp [opmode_name, opmode_suffix, (ho.2 p hp hn).2, clean_name_eq_sanitize]

theorem last_param_int (params : List t_node_parameter) (n : String) (a : Int)
    (h : int_param params n a) :
    ∃ p, last_param n params none = some p ∧ p.value.integer_value = a := by
  obtain ⟨p, hp, hn, hlast⟩ := last_param_mem n params none h.1
  exact ⟨p, hlast, (h.2 p hp hn).2⟩

theorem last_param_present (params : List t_node_parameter) (n : String)
    (h : param_present params n) : ∃ p, last_param n params none = some p := by
  obtain ⟨p, _, _, hlast⟩ := last_param_mem n params none h
  exact ⟨p, hlast⟩

/-- The function `generate_opname` after a successful scan. -/
theorem generate_opname_of_scan (vqm_node : t_node) (arch_models : List t_model)
    (found : opname_params)
    (hscan : scan_params vqm_node.array_of_params opname_params_init = Except.ok found) :
    generate_opname vqm_node arch_models =
      match memory_name (opmode_name vqm_node.type found.operation_mode) found arch_models with
      | Except.error e => Except.error e
      | Except.ok mode_hash =>
        if find_arch_model_by_name mode_hash arch_models = none then
          Except.error (fatal.exit_1 ("Error: could not find primitive \x27" ++ mode_hash
            ++ "\x27 in architecture file"))
        else
          Except.ok mode_hash := by
  simp [generate_opname, hscan]

/-- C1. Whenever `generate_opname` (resolve_mode_hash) returns a name, the catalog lookup of
that name finds a model of exactly that name; a name that no catalog model carries is never
returned; and when the final candidate matches no catalog entry the call fails with the
diagnostic that names the candidate. -/
theorem generate_opname_in_catalog (vqm_node : t_node) (arch_models : List t_model) :
    (∀ h, generate_opname vqm_node arch_models = Except.ok h →
      ∃ m, find_arch_model_by_name h arch_models = some m ∧ m ∈ arch_models ∧ m.name = h)
    ∧ (∀ h, ¬ in_catalog arch_models h → generate_opname vqm_node arch_models ≠ Except.ok h)
    ∧ (∀ found candidate,
        scan_params vqm_node.array_of_params opname_params_init = Except.ok found →
        memory_name (opmode_name vqm_node.type found.operation_mode) found arch_models
          = Except.ok candidate →
        ¬ in_catalog arch_models candidate →
        generate_opname vqm_node arch_models = Except.error (fatal.exit_1
          ("Error: could not find primitive \x27" ++ candidate
            ++ "\x27 in architecture file"))) := by
  have hfind : ∀ h, generate_opname vqm_node arch_models = Except.ok h →
      find_arch_model_by_name h arch_models ≠ none := by
    intro h hres
    unfold generate_opname at hres
    split at hres
    · cases hres
    · split at hres
      · cases hres
      · split at hres
        · cases hres
        · rename_i hne
          cases hres
          exact hne
  refine ⟨?_, ?_, ?_⟩
  · intro h hres
    cases hf : find_arch_model_by_name h arch_models with
    | none => exact absurd hf (hfind h hres)
    | some m =>
      obtain ⟨hm, hname⟩ := find_arch_model_by_name_some h arch_models m hf
      exact ⟨m, rfl, hm, hname⟩
  · intro h hnot hres
    exact hfind h hres ((find_arch_model_by_name_eq_none h arch_models).mpr hnot)
  · intro found candidate hscan hmem hnot
    rw [generate_opname_of_scan vqm_node arch_models found hscan, hmem]
    simp [(find_arch_model_by_name_eq_none candidate arch_models).mpr hnot]

/-! ## The memory-specific part, case by case -/

theorem memory_name_single_port (mode_hash : String) (found : opname_params)
    (arch_models : List t_model) (a_data a_addr : t_node_parameter)
    (h1 : found.port_a_data_width = some a_data) (h2 : found.port_a_addr_width = some a_addr)
    (h3 : found.port_b_data_width = none) (h4 : found.port_b_addr_width = none) :
    memory_name mode_hash found arch_models =
      if find_arch_model_by_name (mode_hash ++ (".port_a_address_width\x7b"
          ++ int_to_decimal a_addr.value.integer_value ++ "\x7d")) arch_models = none then
        Except.error (fatal.exit_1 ("Error: could not find single port memory primitive \x27"
          ++ (mode_hash ++ (".port_a_address_width\x7b"
            ++ int_to_decimal a_addr.value.integer_value ++ "\x7d"))
          ++ "\x27 in architecture file"))
      else
        Except.ok (mode_hash ++ (".port_a_address_width\x7b"
          ++ int_to_decimal a_addr.value.integer_value ++ "\x7d")) := by
  simp only [memory_name, h1, h2, h3, h4]

theorem memory_name_dual_port (mode_hash : String) (found : opname_params)
    (arch_models : List t_model) (a_data a_addr b_data b_addr : t_node_parameter)
    (h1 : found.port_a_data_width = some a_data) (h2 : found.port_a_addr_width = some a_addr)
    (h3 : found.port_b_data_width = some b_data) (h4 : found.port_b_addr_width = some b_addr)
    (hd : a_data.value.integer_value = b_data.value.integer_value)
    (ha : a_addr.value.integer_value = b_addr.value.integer_value) :
    memory_name mode_hash found arch_models =
      if find_arch_model_by_name (mode_hash
          ++ (".port_a_address_width\x7b" ++ int_to_decimal a_addr.value.integer_value ++ "\x7d")
          ++ (".port_b_address_width\x7b" ++ int_to_decimal b_addr.value.integer_value ++ "\x7d"))
          arch_models = none then
        Except.error (fatal.exit_1
          ("Error: could not find dual port (non-mixed_width) memory primitive \x27"
          ++ (mode_hash
            ++ (".port_a_address_width\x7b" ++ int_to_decimal a_addr.value.integer_value
              ++ "\x7d")
            ++ (".port_b_address_width\x7b" ++ int_to_decimal b_addr.value.integer_value
              ++ "\x7d"))
          ++ "\x27 in architecture file"))
      else
        Except.ok (mode_hash
          ++ (".port_a_address_width\x7b" ++ int_to_decimal a_addr.value.integer_value ++ "\x7d")
          ++ (".port_b_address_width\x7b" ++ int_to_decimal b_addr.value.integer_value
            ++ "\x7d")) := by
  simp only [memory_name, h1, h2, h3, h4, hd, ha, and_self, if_true]

theorem memory_name_mixed_width (mode_hash : String) (found : opname_params)
    (arch_models : List t_model) (a_data a_addr b_data b_addr : t_node_parameter)
    (h1 : found.port_a_data_width = some a_data) (h2 : found.port_a_addr_width = some a_addr)
    (h3 : found.port_b_data_width = some b_data) (h4 : found.port_b_addr_width = some b_addr)
    (hne : a_data.value.integer_value ≠ b_data.value.integer_value
      ∨ a_addr.value.integer_value ≠ b_addr.value.integer_value) :
    memory_name mode_hash found arch_models =
      if find_arch_model_by_name (mode_hash
          ++ (".port_a_data_width\x7b" ++ int_to_decimal a_data.value.integer_value ++ "\x7d")
          ++ (".port_a_address_width\x7b" ++ int_to_decimal a_addr.value.integer_value ++ "\x7d")
          ++ (".port_b_data_width\x7b" ++ int_to_decimal b_data.value.integer_value ++ "\x7d")
          ++ (".port_b_address_width\x7b" ++ int_to_decimal b_addr.value.integer_value ++ "\x7d"))
          arch_models = none then
        Except.ok mode_hash
      else
        Except.ok (mode_hash
          ++ (".port_a_data_width\x7b" ++ int_to_decimal a_data.value.integer_value ++ "\x7d")
          ++ (".port_a_address_width\x7b" ++ int_to_decimal a_addr.value.integer_value ++ "\x7d")
          ++ (".port_b_data_width\x7b" ++ int_to_decimal b_data.value.integer_value ++ "\x7d")
          ++ (".port_b_address_width\x7b" ++ int_to_decimal b_addr.value.integer_value
            ++ "\x7d")) := by
  have hcond : ¬ (a_data.value.integer_value = b_data.value.integer_value
      ∧ a_addr.value.integer_value = b_addr.value.integer_value) := by
    rintro ⟨hd, ha⟩
    rcases hne with h | h
    · exact h hd
    · exact h ha
  simp only [memory_name, h1, h2, h3, h4, hcond, if_false]

theorem memory_name_not_memory (mode_hash : String) (found : opname_params)
    (arch_models : List t_model)
    (hsingle : ¬ (found.port_a_data_width.isSome ∧ found.port_a_addr_width.isSome
      ∧ found.port_b_data_width = none ∧ found.port_b_addr_width = none))
    (hdual : ¬ (found.port_a_data_width.isSome ∧ found.port_a_addr_width.isSome
      ∧ found.port_b_data_width.isSome ∧ found.port_b_addr_width.isSome)) :
    memory_name mode_hash found arch_models = Except.ok mode_hash := by
  obtain ⟨om, ad, aa, bd, ba⟩ := found
  cases ad <;> cases aa <;> cases bd <;> cases ba <;>
    simp_all [memory_name]

/-! ## The mode-hash resolver on well-formed parameter collections -/

theorem well_typed_of (params : List t_node_parameter) (o : Option String)
    (ho : opmode_param params o) (hw : widths_integer params) :
    ∀ p ∈ params, well_typed_param p :=
  fun p hp => ⟨opmode_param_well_typed params o ho p hp, hw p hp⟩

theorem widths_integer_of (params : List t_node_parameter)
    (h1 : ∀ p ∈ params, p.name = "port_a_data_width" →
      p.type = t_node_parameter_type.NODE_PARAMETER_INTEGER)
    (h2 : ∀ p ∈ params, p.name = "port_a_address_width" →
      p.type = t_node_parameter_type.NODE_PARAMETER_INTEGER)
    (h3 : ∀ p ∈ params, p.name = "port_b_data_width" →
      p.type = t_node_parameter_type.NODE_PARAMETER_INTEGER)
    (h4 : ∀ p ∈ params, p.name = "port_b_address_width" →
      p.type = t_node_parameter_type.NODE_PARAMETER_INTEGER) :
    widths_integer params := by
  intro p hp hn
  rcases hn with hn | hn | hn | hn
  · exact h1 p hp hn
  · exact h2 p hp hn
  · exact h3 p hp hn
  · exact h4 p hp hn

theorem int_typed_of_int_param (params : List t_node_parameter) (n : String) (a : Int)
    (h : int_param params n a) :
    ∀ p ∈ params, p.name = n → p.type = t_node_parameter_type.NODE_PARAMETER_INTEGER :=
  fun p hp hn => (h.2 p hp hn).1

theorem int_typed_of_absent (params : List t_node_parameter) (n : String)
    (h : param_absent params n) :
    ∀ p ∈ params, p.name = n → p.type = t_node_parameter_type.NODE_PARAMETER_INTEGER :=
  fun p hp hn => absurd hn (h p hp)

/-- The scan of a collection that meets the type contract, started from the null pointers. -/
theorem scan_params_init_ok (params : List t_node_parameter) (o : Option String)
    (ho : opmode_param params o) (hw : widths_integer params) :
    scan_params params opname_params_init = Except.ok
      { operation_mode := last_param "operation_mode" params none,
        port_a_data_width := last_param "port_a_data_width" params none,
        port_a_addr_width := last_param "port_a_address_width" params none,
        port_b_data_width := last_param "port_b_data_width" params none,
        port_b_addr_width := last_param "port_b_address_width" params none } :=
  scan_params_ok params opname_params_init (well_typed_of params o ho hw)

/-- The final sanity check on a name that the catalog holds, or does not hold. -/
theorem find_ne_none_of_in_catalog (arch_models : List t_model) (n : String)
    (h : in_catalog arch_models n) : find_arch_model_by_name n arch_models ≠ none :=
  fun hnone => (find_arch_model_by_name_eq_none n arch_models).mp hnone h

theorem single_port_name_eq (type : String) (o : Option String) (a_addr : Int) :
    type ++ opmode_suffix o ++ (".port_a_address_width\x7b" ++ int_to_decimal a_addr ++ "\x7d")
      = single_port_name type o a_addr := by
  simp only [single_port_name, String.append_assoc]

/-- C2. Single-port case: for an instance whose parameters contain an integer
`port_a_data_width` and the integer `port_a_address_width = A` and neither port B width, the
resolver returns exactly the name N = type, optional `.opmode` suffix, then
`.port_a_address_width` with the decimal text of A in braces, when the catalog contains a model
named N, and fails otherwise (whatever else the catalog holds); the value of
`port_a_data_width` does not occur in the statement, so it has no influence. -/
theorem generate_opname_single_port (vqm_node : t_node) (arch_models : List t_model)
    (o : Option String) (A : Int)
    (ho : opmode_param vqm_node.array_of_params o)
    (had : int_param_present vqm_node.array_of_params "port_a_data_width")
    (haa : int_param vqm_node.array_of_params "port_a_address_width" A)
    (hbd : param_absent vqm_node.array_of_params "port_b_data_width")
    (hba : param_absent vqm_node.array_of_params "port_b_address_width") :
    (in_catalog arch_models (single_port_name vqm_node.type o A) →
      generate_opname vqm_node arch_models = Except.ok (single_port_name vqm_node.type o A))
    ∧ (¬ in_catalog arch_models (single_port_name vqm_node.type o A) →
      generate_opname vqm_node arch_models = Except.error (fatal.exit_1
        ("Error: could not find single port memory primitive \x27"
          ++ single_port_name vqm_node.type o A ++ "\x27 in architecture file"))) := by
  have hw : widths_integer vqm_node.array_of_params :=
    widths_integer_of _ had.2 (int_typed_of_int_param _ _ A haa)
      (int_typed_of_absent _ _ hbd) (int_typed_of_absent _ _ hba)
  obtain ⟨pd, hpd⟩ := last_param_present _ _ had.1
  obtain ⟨pa, hpa, hA⟩ := last_param_int _ _ A haa
  rw [generate_opname_of_scan vqm_node arch_models _ (scan_params_init_ok _ o ho hw)]
  rw [memory_name_single_port _ _ arch_models pd pa hpd hpa
    (last_param_absent _ _ none hbd) (last_param_absent _ _ none hba)]
  simp only [opmode_name_eq vqm_node.type _ o ho, hA, single_port_name_eq]
  constructor
  · intro hin
    simp [find_ne_none_of_in_catalog _ _ hin]
  · intro hnot
    simp [(find_arch_model_by_name_eq_none _ arch_models).mpr hnot]

theorem dual_port_name_eq (type : String) (o : Option String) (a_addr b_addr : Int) :
    type ++ opmode_suffix o
        ++ (".port_a_address_width\x7b" ++ int_to_decimal a_addr ++ "\x7d")
        ++ (".port_b_address_width\x7b" ++ int_to_decimal b_addr ++ "\x7d")
      = dual_port_name type o a_addr b_addr := by
  have hb : ("\x7d.port_b_address_width\x7b" : String) = "\x7d" ++ ".port_b_address_width\x7b" := by
    decide
  simp only [dual_port_name, hb, String.append_assoc]

theorem detailed_name_eq (type : String) (o : Option String) (a_data a_addr b_data b_addr : Int) :
    type ++ opmode_suffix o
        ++ (".port_a_data_width\x7b" ++ int_to_decimal a_data ++ "\x7d")
        ++ (".port_a_address_width\x7b" ++ int_to_decimal a_addr ++ "\x7d")
        ++ (".port_b_data_width\x7b" ++ int_to_decimal b_data ++ "\x7d")
        ++ (".port_b_address_width\x7b" ++ int_to_decimal b_addr ++ "\x7d")
      = detailed_name type o a_data a_addr b_data b_addr := by
  have h1 : ("\x7d.port_a_address_width\x7b" : String) = "\x7d" ++ ".port_a_address_width\x7b" := by
    decide
  have h2 : ("\x7d.port_b_data_width\x7b" : String) = "\x7d" ++ ".port_b_data_width\x7b" := by
    decide
  have h3 : ("\x7d.port_b_address_width\x7b" : String) = "\x7d" ++ ".port_b_address_width\x7b" := by
    decide
  simp only [detailed_name, h1, h2, h3, String.append_assoc]

/-- C3. Symmetric dual-port case: for an instance with all four integer width parameters
present, equal data widths and equal address widths (= A), the resolver returns exactly the
name N = type, optional `.opmode` suffix, then `.port_a_address_width` and
`.port_b_address_width`, each with the decimal text of A in braces, when the catalog contains
N, and fails otherwise; the data widths occur neither in N nor in the outcome. -/
theorem generate_opname_dual_port (vqm_node : t_node) (arch_models : List t_model)
    (o : Option String) (D A : Int)
    (ho : opmode_param vqm_node.array_of_params o)
    (had : int_param vqm_node.array_of_params "port_a_data_width" D)
    (haa : int_param vqm_node.array_of_params "port_a_address_width" A)
    (hbd : int_param vqm_node.array_of_params "port_b_data_width" D)
    (hba : int_param vqm_node.array_of_params "port_b_address_width" A) :
    (in_catalog arch_models (dual_port_name vqm_node.type o A A) →
      generate_opname vqm_node arch_models = Except.ok (dual_port_name vqm_node.type o A A))
    ∧ (¬ in_catalog arch_models (dual_port_name vqm_node.type o A A) →
      generate_opname vqm_node arch_models = Except.error (fatal.exit_1
        ("Error: could not find dual port (non-mixed_width) memory primitive \x27"
          ++ dual_port_name vqm_node.type o A A ++ "\x27 in architecture file"))) := by
  have hw : widths_integer vqm_node.array_of_params :=
    widths_integer_of _ (int_typed_of_int_param _ _ D had) (int_typed_of_int_param _ _ A haa)
      (int_typed_of_int_param _ _ D hbd) (int_typed_of_int_param _ _ A hba)
  obtain ⟨pad, hpad, hAd⟩ := last_param_int _ _ D had
  obtain ⟨paa, hpaa, hAa⟩ := last_param_int _ _ A haa
  obtain ⟨pbd, hpbd, hBd⟩ := last_param_int _ _ D hbd
  obtain ⟨pba, hpba, hBa⟩ := last_param_int _ _ A hba
  rw [generate_opname_of_scan vqm_node arch_models _ (scan_params_init_ok _ o ho hw)]
  rw [memory_name_dual_port _ _ arch_models pad paa pbd pba hpad hpaa hpbd hpba
    (hAd.trans hBd.symm) (hAa.trans hBa.symm)]
  simp only [opmode_name_eq vqm_node.type _ o ho, hAa, hBa, dual_port_name_eq]
  constructor
  · intro hin
    simp [find_ne_none_of_in_catalog _ _ hin]
  · intro hnot
    simp [(find_arch_model_by_name_eq_none _ arch_models).mpr hnot]

/-- C4. Mixed-width dual-port fallback: for an instance with all four integer width parameters
present whose data widths differ or whose address widths differ, when the detailed name is not
in the catalog the resolver returns the candidate of step 3 (type and optional `.opmode`
suffix) if the catalog contains it, and fails with the final diagnostic if it does not. -/
theorem generate_opname_mixed_fallback (vqm_node : t_node) (arch_models : List t_model)
    (o : Option String) (Ad Aa Bd Ba : Int)
    (ho : opmode_param vqm_node.array_of_params o)
    (had : int_param vqm_node.array_of_params "port_a_data_width" Ad)
    (haa : int_param vqm_node.array_of_params "port_a_address_width" Aa)
    (hbd : int_param vqm_node.array_of_params "port_b_data_width" Bd)
    (hba : int_param vqm_node.array_of_params "port_b_address_width" Ba)
    (hne : Ad ≠ Bd ∨ Aa ≠ Ba)
    (hnd : ¬ in_catalog arch_models (detailed_name vqm_node.type o Ad Aa Bd Ba)) :
    (in_catalog arch_models (vqm_node.type ++ opmode_suffix o) →
      generate_opname vqm_node arch_models = Except.ok (vqm_node.type ++ opmode_suffix o))
    ∧ (¬ in_catalog arch_models (vqm_node.type ++ opmode_suffix o) →
      generate_opname vqm_node arch_models = Except.error (fatal.exit_1
        ("Error: could not find primitive \x27" ++ (vqm_node.type ++ opmode_suffix o)
          ++ "\x27 in architecture file"))) := by
  have hw : widths_integer vqm_node.array_of_params :=
    widths_integer_of _ (int_typed_of_int_param _ _ Ad had) (int_typed_of_int_param _ _ Aa haa)
      (int_typed_of_int_param _ _ Bd hbd) (int_typed_of_int_param _ _ Ba hba)
  obtain ⟨pad, hpad, hAd⟩ := last_param_int _ _ Ad had
  obtain ⟨paa, hpaa, hAa⟩ := last_param_int _ _ Aa haa
  obtain ⟨pbd, hpbd, hBd⟩ := last_param_int _ _ Bd hbd
  obtain ⟨pba, hpba, hBa⟩ := last_param_int _ _ Ba hba
  rw [generate_opname_of_scan vqm_node arch_models _ (scan_params_init_ok _ o ho hw)]
  rw [memory_name_mixed_width _ _ arch_models pad paa pbd pba hpad hpaa hpbd hpba
    (by rw [hAd, hAa, hBd, hBa]; exact hne)]
  simp only [opmode_name_eq vqm_node.type _ o ho, hAd, hAa, hBd, hBa, detailed_name_eq,
    (find_arch_model_by_name_eq_none _ arch_models).mpr hnd, if_true]
  constructor
  · intro hin
    simp [find_ne_none_of_in_catalog _ _ hin]
  · intro hnot
    simp [(find_arch_model_by_name_eq_none _ arch_models).mpr hnot]

/-- C5. Mixed-width dual-port adoption: for an instance with all four integer width parameters
present whose data widths differ or whose address widths differ, when the catalog contains the
detailed name D (type, optional `.opmode` suffix, then the port A data width, port A address
width, port B data width and port B address width, in this order) the resolver succeeds and
returns exactly D, whatever else the catalog holds. -/
theorem generate_opname_mixed_detailed (vqm_node : t_node) (arch_models : List t_model)
    (o : Option String) (Ad Aa Bd Ba : Int)
    (ho : opmode_param vqm_node.array_of_params o)
    (had : int_param vqm_node.array_of_params "port_a_data_width" Ad)
    (haa : int_param vqm_node.array_of_params "port_a_address_width" Aa)
    (hbd : int_param vqm_node.array_of_params "port_b_data_width" Bd)
    (hba : int_param vqm_node.array_of_params "port_b_address_width" Ba)
    (hne : Ad ≠ Bd ∨ Aa ≠ Ba)
    (hd : in_catalog arch_models (detailed_name vqm_node.type o Ad Aa Bd Ba)) :
    generate_opname vqm_node arch_models
      = Except.ok (detailed_name vqm_node.type o Ad Aa Bd Ba) := by
  have hw : widths_integer vqm_node.array_of_params :=
    widths_integer_of _ (int_typed_of_int_param _ _ Ad had) (int_typed_of_int_param _ _ Aa haa)
      (int_typed_of_int_param _ _ Bd hbd) (int_typed_of_int_param _ _ Ba hba)
  obtain ⟨pad, hpad, hAd⟩ := last_param_int _ _ Ad had
  obtain ⟨paa, hpaa, hAa⟩ := last_param_int _ _ Aa haa
  obtain ⟨pbd, hpbd, hBd⟩ := last_param_int _ _ Bd hbd
  obtain ⟨pba, hpba, hBa⟩ := last_param_int _ _ Ba hba
  rw [generate_opname_of_scan vqm_node arch_models _ (scan_params_init_ok _ o ho hw)]
  rw [memory_name_mixed_width _ _ arch_models pad paa pbd pba hpad hpaa hpbd hpba
    (by rw [hAd, hAa, hBd, hBa]; exact hne)]
  simp only [opmode_name_eq vqm_node.type _ o ho, hAd, hAa, hBd, hBa, detailed_name_eq,
    find_ne_none_of_in_catalog _ _ hd, if_false]

theorem last_param_isSome_iff (params : List t_node_parameter) (n : String) :
    (last_param n params none).isSome ↔ param_present params n := by
  constructor
  · intro h
    by_contra hnp
    have habs : param_absent params n := fun q hq hqn => hnp ⟨q, hq, hqn⟩
    rw [last_param_absent n params none habs] at h
    cases h
  · intro h
    obtain ⟨p, hp⟩ := last_param_present params n h
    simp [hp]

theorem last_param_eq_none_iff (params : List t_node_parameter) (n : String) :
    last_param n params none = none ↔ param_absent params n := by
  constructor
  · intro h q hq hqn
    obtain ⟨p, hp⟩ := last_param_present params n ⟨q, hq, hqn⟩
    rw [h] at hp
    cases hp
  · exact last_param_absent n params none

/-- C6. No escalation otherwise: for an instance whose recognized width parameters (all
integer-typed) match neither the single-port pattern (both port A widths present, both port B
widths absent) nor the dual-port pattern (all four present), the resolver returns exactly the
candidate of step 3, the declared type name followed by the `.opmode` suffix exactly when an
operation mode is present, if the catalog contains it, and fails otherwise.  Without an
operation mode the instance resolves to its bare type name. -/
theorem generate_opname_no_escalation (vqm_node : t_node) (arch_models : List t_model)
    (o : Option String)
    (ho : opmode_param vqm_node.array_of_params o)
    (hw : widths_integer vqm_node.array_of_params)
    (hsingle : ¬ (param_present vqm_node.array_of_params "port_a_data_width"
      ∧ param_present vqm_node.array_of_params "port_a_address_width"
      ∧ param_absent vqm_node.array_of_params "port_b_data_width"
      ∧ param_absent vqm_node.array_of_params "port_b_address_width"))
    (hdual : ¬ (param_present vqm_node.array_of_params "port_a_data_width"
      ∧ param_present vqm_node.array_of_params "port_a_address_width"
      ∧ param_present vqm_node.array_of_params "port_b_data_width"
      ∧ param_present vqm_node.array_of_params "port_b_address_width")) :
    (in_catalog arch_models (vqm_node.type ++ opmode_suffix o) →
      generate_opname vqm_node arch_models = Except.ok (vqm_node.type ++ opmode_suffix o))
    ∧ (¬ in_catalog arch_models (vqm_node.type ++ opmode_suffix o) →
      generate_opname vqm_node arch_models = Except.error (fatal.exit_1
        ("Error: could not find primitive \x27" ++ (vqm_node.type ++ opmode_suffix o)
          ++ "\x27 in architecture file")))
    ∧ (o = none → in_catalog arch_models vqm_node.type →
      generate_opname vqm_node arch_models = Except.ok vqm_node.type) := by
  have hres : generate_opname vqm_node arch_models =
      if find_arch_model_by_name (vqm_node.type ++ opmode_suffix o) arch_models = none then
        Except.error (fatal.exit_1 ("Error: could not find primitive \x27"
          ++ (vqm_node.type ++ opmode_suffix o) ++ "\x27 in architecture file"))
      else Except.ok (vqm_node.type ++ opmode_suffix o) := by
    rw [generate_opname_of_scan vqm_node arch_models _ (scan_params_init_ok _ o ho hw)]
    rw [memory_name_not_memory]
    · simp only [opmode_name_eq vqm_node.type _ o ho]
    · simp only [last_param_isSome_iff, last_param_eq_none_iff]
      exact hsingle
    · simp only [last_param_isSome_iff]
      exact hdual
  refine ⟨?_, ?_, ?_⟩
  · intro hin
    simp [hres, find_ne_none_of_in_catalog _ _ hin]
  · intro hnot
    simp [hres, (find_arch_model_by_name_eq_none _ arch_models).mpr hnot]
  · intro hnone hin
    subst hnone
    have hsfx : vqm_node.type ++ opmode_suffix none = vqm_node.type := by
      simp [opmode_suffix]
    rw [hsfx] at hres
    simp [hres, find_ne_none_of_in_catalog _ _ hin]

/-! ## The claims at concrete instances -/

/-- The single-port example resolves against a catalog that holds its escalated name. -/
theorem generate_opname_ram_single_port :
    generate_opname ram_single_port
        [{ name := "ram.opmode\x7bsingle_port\x7d" },
         { name := "ram.opmode\x7bsingle_port\x7d.port_a_address_width\x7b7\x7d" }]
      = Except.ok "ram.opmode\x7bsingle_port\x7d.port_a_address_width\x7b7\x7d" := by
  simp [generate_opname, ram_single_port, scan_params, scan_param, opname_params_init,
    memory_name, opmode_name, clean_name_eq_sanitize]
  decide

/-- C1 at concrete inputs: the name returned for the single-port example is found in the
catalog, and a name outside the catalog is not returned. -/
theorem generate_opname_in_catalog_witness :
    (∃ m, find_arch_model_by_name "ram.opmode\x7bsingle_port\x7d.port_a_address_width\x7b7\x7d"
          [{ name := "ram.opmode\x7bsingle_port\x7d" },
           { name := "ram.opmode\x7bsingle_port\x7d.port_a_address_width\x7b7\x7d" }] = some m
        ∧ m ∈ [({ name := "ram.opmode\x7bsingle_port\x7d" } : t_model),
           { name := "ram.opmode\x7bsingle_port\x7d.port_a_address_width\x7b7\x7d" }]
        ∧ m.name = "ram.opmode\x7bsingle_port\x7d.port_a_address_width\x7b7\x7d")
    ∧ generate_opname lcell_comb [{ name := "stratixiv_lcell_ff" }] ≠ Except.ok "stratixiv_lcell_comb" :=
  ⟨(generate_opname_in_catalog ram_single_port _).1 _ generate_opname_ram_single_port,
   (generate_opname_in_catalog lcell_comb [{ name := "stratixiv_lcell_ff" }]).2.1 "stratixiv_lcell_comb"
      (by decide)⟩

/-- C2 at concrete inputs: the single-port example returns its escalated name when the catalog
holds it, and fails when the catalog holds only the opmode-only name. -/
theorem generate_opname_single_port_witness :
    generate_opname ram_single_port
        [{ name := "ram.opmode\x7bsingle_port\x7d.port_a_address_width\x7b7\x7d" }]
      = Except.ok "ram.opmode\x7bsingle_port\x7d.port_a_address_width\x7b7\x7d"
    ∧ generate_opname ram_single_port [{ name := "ram.opmode\x7bsingle_port\x7d" }]
      = Except.error (fatal.exit_1 ("Error: could not find single port memory primitive "
          ++ "\x27ram.opmode\x7bsingle_port\x7d.port_a_address_width\x7b7\x7d\x27"
          ++ " in architecture file")) :=
  ⟨(generate_opname_single_port ram_single_port _ (some "single_port") 7
      (by decide) (by decide) (by decide) (by decide) (by decide)).1 (by decide),
   (generate_opname_single_port ram_single_port _ (some "single_port") 7
      (by decide) (by decide) (by decide) (by decide) (by decide)).2 (by decide)⟩

/-- C3 at concrete inputs: the symmetric dual-port example (widths 8/5/8/5) returns the name
with both address widths, and fails when the catalog holds only the opmode-only name. -/
theorem generate_opname_dual_port_witness :
    generate_opname ram_dual_port
        [{ name := "ram.opmode\x7bdual_port\x7d.port_a_address_width\x7b5\x7d.port_b_address_width\x7b5\x7d" }]
      = Except.ok
          "ram.opmode\x7bdual_port\x7d.port_a_address_width\x7b5\x7d.port_b_address_width\x7b5\x7d"
    ∧ generate_opname ram_dual_port [{ name := "ram.opmode\x7bdual_port\x7d" }]
      = Except.error (fatal.exit_1
          ("Error: could not find dual port (non-mixed_width) memory primitive "
          ++ "\x27ram.opmode\x7bdual_port\x7d.port_a_address_width\x7b5\x7d"
          ++ ".port_b_address_width\x7b5\x7d\x27 in architecture file")) :=
  ⟨(generate_opname_dual_port ram_dual_port _ (some "dual_port") 8 5
      (by decide) (by decide) (by decide) (by decide) (by decide)).1 (by decide),
   (generate_opname_dual_port ram_dual_port _ (some "dual_port") 8 5
      (by decide) (by decide) (by decide) (by decide) (by decide)).2 (by decide)⟩

/-- C4 at concrete inputs: the mixed-width example falls back to the opmode-only name when the
catalog holds only that name, and fails when the catalog does not hold it either. -/
theorem generate_opname_mixed_fallback_witness :
    generate_opname ram_mixed_width [{ name := "ram.opmode\x7bdual_port\x7d" }]
      = Except.ok "ram.opmode\x7bdual_port\x7d"
    ∧ generate_opname ram_mixed_width [{ name := "ram" }]
      = Except.error (fatal.exit_1
          "Error: could not find primitive \x27ram.opmode\x7bdual_port\x7d\x27 in architecture file") :=
  ⟨(generate_opname_mixed_fallback ram_mixed_width _ (some "dual_port") 8 5 16 4
      (by decide) (by decide) (by decide) (by decide) (by decide) (by decide)
      (by decide)).1 (by decide),
   (generate_opname_mixed_fallback ram_mixed_width _ (some "dual_port") 8 5 16 4
      (by decide) (by decide) (by decide) (by decide) (by decide) (by decide)
      (by decide)).2 (by decide)⟩

/-- C5 at a concrete input: the mixed-width example adopts the detailed name when the catalog
holds it, also next to the opmode-only name. -/
theorem generate_opname_mixed_detailed_witness :
    generate_opname ram_mixed_width
        [{ name := "ram.opmode\x7bdual_port\x7d" },
         { name := "ram.opmode\x7bdual_port\x7d.port_a_data_width\x7b8\x7d.port_a_address_width\x7b5\x7d.port_b_data_width\x7b16\x7d.port_b_address_width\x7b4\x7d" }]
      = Except.ok
          "ram.opmode\x7bdual_port\x7d.port_a_data_width\x7b8\x7d.port_a_address_width\x7b5\x7d.port_b_data_width\x7b16\x7d.port_b_address_width\x7b4\x7d" :=
  generate_opname_mixed_detailed ram_mixed_width _ (some "dual_port") 8 5 16 4
    (by decide) (by decide) (by decide) (by decide) (by decide) (by decide) (by decide)

/-- C6 at concrete inputs: with three of the four width parameters the example resolves to
type and sanitized operation mode; a block without recognized parameters resolves to its bare
type name, and fails when the catalog does not hold that name. -/
theorem generate_opname_no_escalation_witness :
    generate_opname ram_three_widths [{ name := "ram.opmode\x7bdual_port\x7d" }]
      = Except.ok "ram.opmode\x7bdual_port\x7d"
    ∧ generate_opname lcell_comb [{ name := "stratixiv_lcell_ff" }, { name := "stratixiv_lcell_comb" }]
      = Except.ok "stratixiv_lcell_comb"
    ∧ generate_opname lcell_comb [{ name := "stratixiv_lcell_ff" }]
      = Except.error (fatal.exit_1
          "Error: could not find primitive \x27stratixiv_lcell_comb\x27 in architecture file") :=
  ⟨(generate_opname_no_escalation ram_three_widths _ (some "dual port")
      (by decide) (by decide) (by decide) (by decide)).1 (by decide),
   (generate_opname_no_escalation lcell_comb _ none
      (by decide) (by decide) (by decide) (by decide)).2.2 rfl (by decide),
   (generate_opname_no_escalation lcell_comb _ none
      (by decide) (by decide) (by decide) (by decide)).2.1 (by decide)⟩

/-! ## Structural validator: the loops against the conditions of the specification -/

theorem length_pos_iff_ne_empty (s : String) : s.length > 0 ↔ s ≠ "" := by
  constructor
  · intro h he
    subst he
    exact absurd h (by decide)
  · intro h
    by_contra hlen
    apply h
    have h0 : s.data.length = 0 := by
      have : s.length = s.data.length := rfl
      omega
    have hnil : s.data = [] := List.length_eq_zero.mp h0
    exact String.ext hnil

/-- The two guarded assertions on a bit index, as one condition. -/
theorem valid_index_iff (pin : t_pin_def) (index : Int) :
    valid_index pin index ↔
      (if index ≥ 0 then
        index ≤ max pin.left pin.right ∧ index ≥ min pin.left pin.right
      else pin.left = pin.right) := by
  unfold valid_index
  by_cases h : index ≥ 0
  · simp only [h, if_true]
    constructor
    · rintro (⟨_, h1, h2⟩ | ⟨h1, _⟩)
      · exact ⟨h2, h1⟩
      · omega
    · rintro ⟨h1, h2⟩
      exact Or.inl ⟨trivial, h2, h1⟩
  · simp only [h, if_false]
    constructor
    · rintro (⟨h1, _⟩ | ⟨_, h2⟩)
      · exact h1.elim
      · exact h2
    · intro h2
      exact Or.inr ⟨by omega, h2⟩

theorem verify_pins_ok_iff (pins : List (Option t_pin_def)) :
    verify_pins pins = Except.ok () ↔ ∀ p ∈ pins, ∃ pin ∈ p, pin.name ≠ "" := by
  induction pins with
  | nil => simp [verify_pins]
  | cons p rest ih =>
    rw [List.forall_mem_cons, ← ih]
    cases p with
    | none => simp [verify_pins]
    | some pin =>
      by_cases hn : pin.name.length > 0
      · have hne := (length_pos_iff_ne_empty pin.name).mp hn
        simp [verify_pins, hn, hne]
      · have hne : pin.name = "" := by
          by_contra hne
          exact hn ((length_pos_iff_ne_empty pin.name).mpr hne)
        simp [verify_pins, hn, hne]

/-- One iteration of the assignment loop on a present assignment with a present target. -/
theorem verify_assignments_cons_some (assign : t_assign) (pin : t_pin_def)
    (rest : List (Option t_assign)) (ht : assign.target = some pin) :
    verify_assignments (some assign :: rest) = Except.ok () ↔
      valid_index pin assign.target_index ∧ verify_assignments rest = Except.ok () := by
  rw [valid_index_iff]
  simp only [verify_assignments, ht]
  split_ifs <;> simp_all

theorem verify_assignments_ok_iff (assignments : List (Option t_assign)) :
    verify_assignments assignments = Except.ok () ↔
      ∀ a ∈ assignments,
        ∃ assign ∈ a, ∃ pin ∈ assign.target, valid_index pin assign.target_index := by
  induction assignments with
  | nil => simp [verify_assignments]
  | cons a rest ih =>
    rw [List.forall_mem_cons, ← ih]
    cases a with
    | none => simp [verify_assignments]
    | some assign =>
      cases ht : assign.target with
      | none => simp [verify_assignments, ht]
      | some pin =>
        rw [verify_assignments_cons_some assign pin rest ht]
        constructor
        · rintro ⟨hv, hr⟩
          exact ⟨⟨assign, rfl, pin, ht, hv⟩, hr⟩
        · rintro ⟨⟨assign1, ha, pin1, hp, hv⟩, hr⟩
          have ha1 : assign = assign1 := Option.some.inj (Option.mem_def.mp ha)
          subst ha1
          have hp1 : pin = pin1 := Option.some.inj (ht.symm.trans (Option.mem_def.mp hp))
          subst hp1
          exact ⟨hv, hr⟩

/-- One iteration of the port loop on a present port association with a present pin. -/
theorem verify_ports_cons_some (port : t_node_port_association) (pin : t_pin_def)
    (rest : List (Option t_node_port_association)) (ht : port.associated_net = some pin) :
    verify_ports (some port :: rest) = Except.ok () ↔
      valid_index pin port.wire_index ∧ verify_ports rest = Except.ok () := by
  rw [valid_index_iff]
  simp only [verify_ports, ht]
  split_ifs <;> simp_all

theorem verify_ports_ok_iff (ports : List (Option t_node_port_association)) :
    verify_ports ports = Except.ok () ↔
      ∀ pa ∈ ports,
        ∃ port ∈ pa, ∃ pin ∈ port.associated_net, valid_index pin port.wire_index := by
  induction ports with
  | nil => simp [verify_ports]
  | cons pa rest ih =>
    rw [List.forall_mem_cons, ← ih]
    cases pa with
    | none => simp [verify_ports]
    | some port =>
      cases ht : port.associated_net with
      | none => simp [verify_ports, ht]
      | some pin =>
        rw [verify_ports_cons_some port pin rest ht]
        constructor
        · rintro ⟨hv, hr⟩
          exact ⟨⟨port, rfl, pin, ht, hv⟩, hr⟩
        · rintro ⟨⟨port1, ha, pin1, hp, hv⟩, hr⟩
          have ha1 : port = port1 := Option.some.inj (Option.mem_def.mp ha)
          subst ha1
          have hp1 : pin = pin1 := Option.some.inj (ht.symm.trans (Option.mem_def.mp hp))
          subst hp1
          exact ⟨hv, hr⟩

theorem verify_nodes_ok_iff (nodes : List (Option t_node)) :
    verify_nodes nodes = Except.ok () ↔
      ∀ n ∈ nodes, ∃ node ∈ n, ∀ pa ∈ node.array_of_ports,
        ∃ port ∈ pa, ∃ pin ∈ port.associated_net, valid_index pin port.wire_index := by
  induction nodes with
  | nil => simp [verify_nodes]
  | cons n rest ih =>
    rw [List.forall_mem_cons, ← ih]
    cases n with
    | none => simp [verify_nodes]
    | some node =>
      have hstep : verify_nodes (some node :: rest) = Except.ok () ↔
          verify_ports node.array_of_ports = Except.ok ()
            ∧ verify_nodes rest = Except.ok () := by
        simp only [verify_nodes]
        cases hp : verify_ports node.array_of_ports with
        | error e => simp
        | ok u => simp
      rw [hstep, verify_ports_ok_iff]
      constructor
      · rintro ⟨hv, hr⟩
        exact ⟨⟨node, rfl, hv⟩, hr⟩
      · rintro ⟨⟨node1, hn, hv⟩, hr⟩
        have hn1 : node = node1 := Option.some.inj (Option.mem_def.mp hn)
        subst hn1
        exact ⟨hv, hr⟩

/-- The validator accepts exactly the modules that meet the conditions of the
specification. -/
theorem verify_module_ok_iff (module : Option t_module) :
    verify_module module = Except.ok () ↔ valid_module module := by
  cases module with
  | none => simp [verify_module, valid_module]
  | some m =>
    show verify_module (some m) = Except.ok () ↔
      m.name ≠ "" ∧ _ ∧ _ ∧ _
    rw [← verify_pins_ok_iff, ← verify_assignments_ok_iff, ← verify_nodes_ok_iff,
      ← length_pos_iff_ne_empty]
    unfold verify_module
    by_cases hn : m.name.length > 0
    · simp only [hn, if_true, true_and]
      cases hp : verify_pins m.array_of_pins with
      | error e => simp
      | ok u =>
        cases ha : verify_assignments m.array_of_assignments with
        | error e => simp
        | ok v => simp
    · simp [hn]

/-- A call of the validator that does not accept ends the process. -/
theorem verify_module_error_of_not_ok (module : Option t_module)
    (h : verify_module module ≠ Except.ok ()) : ∃ e, verify_module module = Except.error e := by
  cases hres : verify_module module with
  | error e => exact ⟨e, rfl⟩
  | ok u => exact absurd hres h

theorem verify_pins_ok_or_assert (pins : List (Option t_pin_def)) :
    verify_pins pins = Except.ok () ∨ verify_pins pins = Except.error fatal.assert_failed := by
  induction pins with
  | nil => exact Or.inl rfl
  | cons p rest ih =>
    cases p with
    | none => exact Or.inr rfl
    | some pin =>
      simp only [verify_pins]
      split_ifs
      · exact ih
      · exact Or.inr rfl

theorem verify_assignments_ok_or_assert (assignments : List (Option t_assign)) :
    verify_assignments assignments = Except.ok ()
      ∨ verify_assignments assignments = Except.error fatal.assert_failed := by
  induction assignments with
  | nil => exact Or.inl rfl
  | cons a rest ih =>
    cases a with
    | none => exact Or.inr rfl
    | some assign =>
      cases ht : assign.target with
      | none => simp [verify_assignments, ht]
      | some pin =>
        simp only [verify_assignments, ht]
        split_ifs <;> first | exact ih | exact Or.inr rfl

theorem verify_ports_ok_or_assert (ports : List (Option t_node_port_association)) :
    verify_ports ports = Except.ok ()
      ∨ verify_ports ports = Except.error fatal.assert_failed := by
  induction ports with
  | nil => exact Or.inl rfl
  | cons pa rest ih =>
    cases pa with
    | none => exact Or.inr rfl
    | some port =>
      cases ht : port.associated_net with
      | none => simp [verify_ports, ht]
      | some pin =>
        simp only [verify_ports, ht]
        split_ifs <;> first | exact ih | exact Or.inr rfl

theorem verify_nodes_ok_or_assert (nodes : List (Option t_node)) :
    verify_nodes nodes = Except.ok ()
      ∨ verify_nodes nodes = Except.error fatal.assert_failed := by
  induction nodes with
  | nil => exact Or.inl rfl
  | cons n rest ih =>
    cases n with
    | none => exact Or.inr rfl
    | some node =>
      simp only [verify_nodes]
      rcases verify_ports_ok_or_assert node.array_of_ports with h | h
      · rw [h]
        exact ih
      · rw [h]
        exact Or.inr rfl

/-- On a present module the validator either returns or fails an assertion. -/
theorem verify_module_ok_or_assert (m : t_module) :
    verify_module (some m) = Except.ok ()
      ∨ verify_module (some m) = Except.error fatal.assert_failed := by
  simp only [verify_module]
  split_ifs
  · rcases verify_pins_ok_or_assert m.array_of_pins with h | h
    · rw [h]
      rcases verify_assignments_ok_or_assert m.array_of_assignments with h1 | h1
      · rw [h1]
        exact verify_nodes_ok_or_assert m.array_of_nodes
      · rw [h1]
        exact Or.inr rfl
    · rw [h]
      exact Or.inr rfl
  · exact Or.inr rfl

/-- In an accepted module every pair taken from an assignment or from a port association
meets the index rule. -/
theorem valid_index_of_accepted (m : t_module) (pin : t_pin_def) (index : Int)
    (hok : verify_module (some m) = Except.ok ()) (hentry : module_entry m pin index) :
    valid_index pin index := by
  obtain ⟨_, _, hassign, hnodes⟩ := (verify_module_ok_iff (some m)).mp hok
  rcases hentry with ⟨assign, hmem, htarget, hidx⟩ | ⟨node, port, hnode, hport, hnet, hidx⟩
  · obtain ⟨assign1, ha, pin1, hp, hv⟩ := hassign (some assign) hmem
    have ha1 : assign = assign1 := Option.some.inj (Option.mem_def.mp ha)
    subst ha1
    have hp1 : pin = pin1 := Option.some.inj (htarget.symm.trans (Option.mem_def.mp hp))
    subst hp1
    rw [← hidx]
    exact hv
  · obtain ⟨node1, hn, hports⟩ := hnodes (some node) hnode
    have hn1 : node = node1 := Option.some.inj (Option.mem_def.mp hn)
    subst hn1
    obtain ⟨port1, ha, pin1, hp, hv⟩ := hports (some port) hport
    have ha1 : port = port1 := Option.some.inj (Option.mem_def.mp ha)
    subst ha1
    have hp1 : pin = pin1 := Option.some.inj (hnet.symm.trans (Option.mem_def.mp hp))
    subst hp1
    rw [← hidx]
    exact hv

/-- A module with a pair that breaks the index rule is rejected, by a failed assertion. -/
theorem rejected_of_invalid_index (m : t_module) (pin : t_pin_def) (index : Int)
    (hentry : module_entry m pin index) (hbad : ¬ valid_index pin index) :
    verify_module (some m) = Except.error fatal.assert_failed := by
  rcases verify_module_ok_or_assert m with h | h
  · exact absurd (valid_index_of_accepted m pin index h hentry) hbad
  · exact h

/-! ## The claims on the catalog lookup and on the validator -/

theorem find_arch_model_by_name_first (model_name : String) (arch_models : List t_model)
    (m : t_model) :
    find_arch_model_by_name model_name arch_models = some m ↔
      ∃ pre post, arch_models = pre ++ m :: post ∧ m.name = model_name
        ∧ ∀ x ∈ pre, x.name ≠ model_name := by
  induction arch_models with
  | nil => simp [find_arch_model_by_name]
  | cons a next ih =>
    rw [find_arch_model_by_name]
    by_cases hn : model_name = a.name
    · simp only [hn, if_true, Option.some.injEq]
      constructor
      · intro h
        subst h
        exact ⟨[], next, rfl, rfl, by simp⟩
      · rintro ⟨pre, post, hcat, hname, hpre⟩
        cases pre with
        | nil =>
          simp only [List.nil_append, List.cons.injEq] at hcat
          exact hcat.1
        | cons x pre1 =>
          simp only [List.cons_append, List.cons.injEq] at hcat
          exact absurd (hcat.1 ▸ rfl) (hpre x (List.mem_cons_self _ _))
    · simp only [hn, if_false, ih]
      constructor
      · rintro ⟨pre, post, hcat, hname, hpre⟩
        refine ⟨a :: pre, post, by simp [hcat], hname, ?_⟩
        intro x hx
        rcases List.mem_cons.mp hx with rfl | hx
        · exact fun h => hn h.symm
        · exact hpre x hx
      · rintro ⟨pre, post, hcat, hname, hpre⟩
        cases pre with
        | nil =>
          simp only [List.nil_append, List.cons.injEq] at hcat
          exact absurd (hcat.1 ▸ hname.symm) hn
        | cons x pre1 =>
          simp only [List.cons_append, List.cons.injEq] at hcat
          exact ⟨pre1, post, hcat.2, hname, fun y hy => hpre y (List.mem_cons_of_mem _ hy)⟩

/-- C11. `find_arch_model_by_name` (find_model) is a first-match linear lookup: it returns
absent exactly when no catalog model has a name equal to the query; it returns a model `m`
exactly when `m` stands in the catalog, carries the queried name, and no model before it in
catalog order carries that name.  With duplicate names the first wins: the entry returned is
the first one of that name, whatever follows it in the catalog, and no other entry. -/
theorem find_arch_model_by_name_first_match (model_name : String)
    (arch_models : List t_model) :
    (find_arch_model_by_name model_name arch_models = none ↔
      ∀ m ∈ arch_models, m.name ≠ model_name)
    ∧ (∀ m, find_arch_model_by_name model_name arch_models = some m ↔
      ∃ pre post, arch_models = pre ++ m :: post ∧ m.name = model_name
        ∧ ∀ x ∈ pre, x.name ≠ model_name)
    ∧ (∀ pre first post, arch_models = pre ++ first :: post → first.name = model_name →
        (∀ x ∈ pre, x.name ≠ model_name) →
        find_arch_model_by_name model_name arch_models = some first
        ∧ ∀ m, find_arch_model_by_name model_name arch_models = some m → m = first) := by
  refine ⟨?_, find_arch_model_by_name_first model_name arch_models, ?_⟩
  · rw [find_arch_model_by_name_eq_none]
    constructor
    · intro h m hm hname
      exact h ⟨m, hm, hname⟩
    · rintro h ⟨m, hm, hname⟩
      exact h m hm hname
  · intro pre first post hcat hname hpre
    have hfirst : find_arch_model_by_name model_name arch_models = some first :=
      (find_arch_model_by_name_first model_name arch_models first).mpr
        ⟨pre, post, hcat, hname, hpre⟩
    refine ⟨hfirst, ?_⟩
    intro m hm
    rw [hfirst] at hm
    exact (Option.some.inj hm).symm

/-- C11 at concrete inputs: in a catalog that holds the name `ram` twice, in two different
entries, the lookup returns the first of the two and not the second; a name that does not
occur is absent. -/
theorem find_arch_model_by_name_first_match_witness :
    find_arch_model_by_name "ram" [⟨"lut", 0⟩, ⟨"ram", 1⟩, ⟨"ff", 2⟩, ⟨"ram", 3⟩]
      = some ⟨"ram", 1⟩
    ∧ find_arch_model_by_name "ram" [⟨"lut", 0⟩, ⟨"ram", 1⟩, ⟨"ff", 2⟩, ⟨"ram", 3⟩]
      ≠ some ⟨"ram", 3⟩
    ∧ find_arch_model_by_name "dsp" [⟨"lut", 0⟩, ⟨"ram", 1⟩, ⟨"ff", 2⟩, ⟨"ram", 3⟩] = none :=
  ⟨((find_arch_model_by_name_first_match "ram"
      [⟨"lut", 0⟩, ⟨"ram", 1⟩, ⟨"ff", 2⟩, ⟨"ram", 3⟩]).2.2
      [⟨"lut", 0⟩] ⟨"ram", 1⟩ [⟨"ff", 2⟩, ⟨"ram", 3⟩] rfl rfl (by decide)).1,
   fun h => absurd (((find_arch_model_by_name_first_match "ram"
      [⟨"lut", 0⟩, ⟨"ram", 1⟩, ⟨"ff", 2⟩, ⟨"ram", 3⟩]).2.2
      [⟨"lut", 0⟩] ⟨"ram", 1⟩ [⟨"ff", 2⟩, ⟨"ram", 3⟩] rfl rfl (by decide)).2 _ h) (by decide),
   (find_arch_model_by_name_first_match "dsp"
      [⟨"lut", 0⟩, ⟨"ram", 1⟩, ⟨"ff", 2⟩, ⟨"ram", 3⟩]).1.mpr (by decide)⟩

/-- C12. `verify_module` (validate) accepts a module if and only if the module is present with
a non-empty name, every pin is present with a non-empty name, every assignment is present with
a present target pin that meets the index rule, and every instance is present with every port
association present, with a present pin that meets the index rule.  A module that meets these
conditions is never rejected. -/
theorem verify_module_accepts_iff (module : Option t_module) :
    (verify_module module = Except.ok () ↔ valid_module module)
    ∧ (valid_module module → ∀ e, verify_module module ≠ Except.error e) := by
  refine ⟨verify_module_ok_iff module, ?_⟩
  intro hv e he
  have hok := (verify_module_ok_iff module).mpr hv
  rw [hok] at he
  cases he

/-- C12 at concrete inputs: a module that meets the conditions is accepted and not rejected;
the absent module and a module with an absent pin are not accepted. -/
theorem verify_module_accepts_iff_witness :
    verify_module (some module_ok) = Except.ok ()
    ∧ verify_module (some module_ok) ≠ Except.error fatal.assert_failed
    ∧ ¬ valid_module none
    ∧ ¬ valid_module (some { module_ok with array_of_pins := [some pin_data, none] }) :=
  ⟨(verify_module_accepts_iff (some module_ok)).1.mpr (by decide),
   (verify_module_accepts_iff (some module_ok)).2 (by decide) fatal.assert_failed,
   fun h => absurd ((verify_module_accepts_iff none).1.mpr h) (by decide),
   fun h => absurd ((verify_module_accepts_iff
      (some { module_ok with array_of_pins := [some pin_data, none] })).1.mpr h) (by decide)⟩

/-- C13. Validator bounds rule: a module that contains, in an assignment or in a port
association of any instance, a concrete index (at least 0) above the larger or below the
smaller bound of the referenced pin is rejected, whatever else the module contains. -/
theorem verify_module_rejects_out_of_bounds (m : t_module) (pin : t_pin_def) (index : Int)
    (hentry : module_entry m pin index) (hconcrete : index ≥ 0)
    (hout : index > max pin.left pin.right ∨ index < min pin.left pin.right) :
    verify_module (some m) ≠ Except.ok ()
    ∧ verify_module (some m) = Except.error fatal.assert_failed := by
  have hbad : ¬ valid_index pin index := by
    rintro (⟨_, h1, h2⟩ | ⟨h1, _⟩)
    · rcases hout with h | h
      · exact absurd h2 (not_le.mpr h)
      · exact absurd h1 (not_le.mpr h)
    · omega
  have hrej := rejected_of_invalid_index m pin index hentry hbad
  refine ⟨?_, hrej⟩
  rw [hrej]
  exact fun h => by cases h

/-- C13 at a concrete input: an assignment with target index 10 on a pin with left 7 and
right 0 makes the validator reject the module. -/
theorem verify_module_rejects_out_of_bounds_witness :
    verify_module (some module_out_of_bounds) ≠ Except.ok ()
    ∧ verify_module (some module_out_of_bounds) = Except.error fatal.assert_failed :=
  verify_module_rejects_out_of_bounds module_out_of_bounds pin_data 10
    (Or.inl ⟨⟨some pin_data, 10⟩, by decide, rfl, rfl⟩) (by decide) (Or.inl (by decide))

/-- C14. Validator whole-pin rule: a module that contains an assignment or a port association
whose index is negative (the whole-pin sentinel, in particular -1) and whose referenced pin has
different bounds is rejected; the `indexed` flag of the pin plays no part. -/
theorem verify_module_rejects_whole_bus (m : t_module) (pin : t_pin_def) (index : Int)
    (hentry : module_entry m pin index) (hneg : index < 0) (hne : pin.left ≠ pin.right) :
    verify_module (some m) ≠ Except.ok ()
    ∧ verify_module (some m) = Except.error fatal.assert_failed := by
  have hbad : ¬ valid_index pin index := by
    rintro (⟨h1, _, _⟩ | ⟨_, h2⟩)
    · omega
    · exact hne h2
  have hrej := rejected_of_invalid_index m pin index hentry hbad
  refine ⟨?_, hrej⟩
  rw [hrej]
  exact fun h => by cases h

/-- C14 at concrete inputs: a port association with index -1 on the bus `data[7:0]`, with the
pin indexed and with the same pin declared not indexed. -/
theorem verify_module_rejects_whole_bus_witness :
    verify_module (some module_whole_bus) = Except.error fatal.assert_failed
    ∧ verify_module (some
        { module_whole_bus with
          array_of_assignments := [some ⟨some ⟨"data", t_boolean.T_FALSE, 7, 0⟩, -1⟩] })
      = Except.error fatal.assert_failed :=
  ⟨(verify_module_rejects_whole_bus module_whole_bus pin_data (-1)
      (Or.inr ⟨⟨"stratixiv_lcell_comb", [], [some ⟨some pin_data, -1⟩]⟩, ⟨some pin_data, -1⟩,
        by decide, by decide, rfl, rfl⟩) (by decide) (by decide)).2,
   (verify_module_rejects_whole_bus _ ⟨"data", t_boolean.T_FALSE, 7, 0⟩ (-1)
      (Or.inl ⟨⟨some ⟨"data", t_boolean.T_FALSE, 7, 0⟩, -1⟩, by decide, rfl, rfl⟩)
      (by decide) (by decide)).2⟩

/-- C17, as stated, fails: the validator accepts a module with an assignment to bit 0 of the
one-bit pin `q[0:0]`, a concrete index on a pin that is not multi-bit; and it accepts a module
with the index -2, which is not the sentinel -1 and lies outside the bounds of `w[2:2]`. -/
theorem data_model_invariant_counterexample :
    (verify_module (some module_single_bit) = Except.ok ()
      ∧ module_entry module_single_bit pin_q 0
      ∧ ¬ data_model_invariant pin_q 0)
    ∧ (verify_module (some module_negative) = Except.ok ()
      ∧ module_entry module_negative pin_w (-2)
      ∧ ¬ data_model_invariant pin_w (-2)) :=
  ⟨⟨by decide, Or.inl ⟨⟨some pin_q, 0⟩, by decide, rfl, rfl⟩, by decide⟩,
   ⟨by decide, Or.inl ⟨⟨some pin_w, -2⟩, by decide, rfl, rfl⟩, by decide⟩⟩

/-- C17, amended. In every module accepted by the validator, each assignment and each port
association satisfies: an index that is at least 0 lies within the bounds of the referenced
pin, given in either order; a negative index goes with a single-bit pin. -/
theorem verify_module_bounds_invariant (m : t_module) (pin : t_pin_def) (index : Int)
    (hok : verify_module (some m) = Except.ok ()) (hentry : module_entry m pin index) :
    (index ≥ 0 → min pin.left pin.right ≤ index ∧ index ≤ max pin.left pin.right)
    ∧ (index < 0 → pin.left = pin.right) := by
  rcases valid_index_of_accepted m pin index hok hentry with ⟨_, h1, h2⟩ | ⟨h1, h2⟩
  · exact ⟨fun _ => ⟨h1, h2⟩, fun h => by omega⟩
  · exact ⟨fun h => by omega, fun _ => h2⟩

/-- C17, amended, at concrete inputs: bit 7 of `data[7:0]` in a port association, and the
whole wire `clk` in an assignment, of an accepted module. -/
theorem verify_module_bounds_invariant_witness :
    (min pin_data.left pin_data.right ≤ 7 ∧ 7 ≤ max pin_data.left pin_data.right)
    ∧ pin_clk.left = pin_clk.right :=
  ⟨(verify_module_bounds_invariant module_ok pin_data 7 (by decide)
      (Or.inr ⟨⟨"stratixiv_lcell_comb", [], [some ⟨some pin_data, 7⟩, some ⟨some pin_clk, -1⟩]⟩,
        ⟨some pin_data, 7⟩, by decide, by decide, rfl, rfl⟩)).1 (by decide),
   (verify_module_bounds_invariant module_ok pin_clk (-1) (by decide)
      (Or.inl ⟨⟨some pin_clk, -1⟩, by decide, rfl, rfl⟩)).2 (by decide)⟩

/-- C18. The validator prevents the violation of the single-bit contract of `get_wire_name`:
in every accepted module, the pin of an assignment or of a port association whose index is -1
has equal bounds, so that `get_wire_name` on that pin and -1 does not fail its assertion. -/
theorem verify_module_single_bit (m : t_module) (pin : t_pin_def)
    (hok : verify_module (some m) = Except.ok ()) (hentry : module_entry m pin (-1)) :
    pin.left = pin.right
    ∧ get_wire_name pin (-1) ≠ Except.error fatal.assert_failed := by
  have hlr : pin.left = pin.right := by
    rcases valid_index_of_accepted m pin (-1) hok hentry with ⟨h1, _, _⟩ | ⟨_, h2⟩
    · omega
    · exact h2
  refine ⟨hlr, ?_⟩
  unfold get_wire_name
  simp only [hlr, if_true]
  split_ifs
  · exact fun h => by cases h
  · unfold append_index_to_str
    split_ifs <;> exact fun h => by cases h

/-- C18 at a concrete input: the wire `clk`, connected with index -1 in an accepted module. -/
theorem verify_module_single_bit_witness :
    pin_clk.left = pin_clk.right
    ∧ get_wire_name pin_clk (-1) ≠ Except.error fatal.assert_failed :=
  verify_module_single_bit module_ok pin_clk (by decide)
    (Or.inl ⟨⟨some pin_clk, -1⟩, by decide, rfl, rfl⟩)

/-- C19, as stated, fails: the validator accepts a module with the index -2 on the indexed pin
`w[2:2]` and with the index -1 on the indexed pin `v[-3:-3]`; on both pairs `get_wire_name`
ends in the fatal error of a negative index. -/
theorem get_wire_name_total_counterexample :
    verify_module (some module_negative) = Except.ok ()
    ∧ module_entry module_negative pin_w (-2)
    ∧ get_wire_name pin_w (-2)
        = Except.error (fatal.exit_1 "PARSER ERROR: Cannot append -2 as index.\n")
    ∧ module_entry module_negative pin_v (-1)
    ∧ get_wire_name pin_v (-1)
        = Except.error (fatal.exit_1 "PARSER ERROR: Cannot append -3 as index.\n") :=
  ⟨by decide, Or.inl ⟨⟨some pin_w, -2⟩, by decide, rfl, rfl⟩, by decide,
   Or.inr ⟨⟨"stratixiv_lcell_comb", [], [some ⟨some pin_v, -1⟩]⟩, ⟨some pin_v, -1⟩,
     by decide, by decide, rfl, rfl⟩, by decide⟩

/-- C19, amended. For every module accepted by the validator and every pair of a pin and an
index taken from one of its assignments or port associations, `get_wire_name` never fails its
single-bit assertion, and it returns a name whenever the pin is not indexed, or the index is
at least 0, or the index is -1 and the bound of the pin is not negative; it fails exactly when
the pin is indexed and the index is below -1, or is -1 with a negative bound. -/
theorem get_wire_name_of_accepted (m : t_module) (pin : t_pin_def) (index : Int)
    (hok : verify_module (some m) = Except.ok ()) (hentry : module_entry m pin index) :
    get_wire_name pin index ≠ Except.error fatal.assert_failed
    ∧ ((pin.indexed = t_boolean.T_FALSE ∨ index ≥ 0 ∨ (index = -1 ∧ pin.left ≥ 0)) →
        ∃ s, get_wire_name pin index = Except.ok s)
    ∧ ((∃ e, get_wire_name pin index = Except.error e) ↔
        pin.indexed = t_boolean.T_TRUE ∧ (index < -1 ∨ (index = -1 ∧ pin.left < 0))) := by
  have hvalid := valid_index_of_accepted m pin index hok hentry
  have hsingle : index = -1 → pin.left = pin.right := by
    intro h1
    rcases hvalid with ⟨h0, _, _⟩ | ⟨_, h2⟩
    · omega
    · exact h2
  have hiff : (∃ e, get_wire_name pin index = Except.error e) ↔
      pin.indexed = t_boolean.T_TRUE ∧ (index < -1 ∨ (index = -1 ∧ pin.left < 0)) := by
    by_cases hi : pin.indexed = t_boolean.T_FALSE
    · rw [get_wire_name_not_indexed pin index hi]
      simp [hi]
    · have hi1 := indexed_of_ne_false _ hi
      by_cases h1 : index = -1
      · have hlr := hsingle h1
        have hget : get_wire_name pin index = append_index_to_str pin.name pin.left := by
          simp [get_wire_name, hi1, h1, hlr]
        rw [hget]
        by_cases hl : pin.left < 0
        · simp [hi1, h1, append_index_to_str, hl]
        · simp [hi1, h1, append_index_to_str, hl]
      · by_cases hneg : index < 0
        · have hlt : index < -1 := by omega
          simp [get_wire_name, hi1, h1, append_index_to_str, hneg, hlt]
        · have hlt : ¬ index < -1 := by omega
          simp [get_wire_name, hi1, h1, append_index_to_str, hneg, hlt]
  refine ⟨?_, ?_, hiff⟩
  · intro hfail
    have hcase := hiff.mp ⟨_, hfail⟩
    obtain ⟨hi1, hc⟩ := hcase
    rcases hc with hlt | ⟨h1, hl⟩
    · have h1 : index ≠ -1 := by omega
      have hneg : index < 0 := by omega
      simp [get_wire_name, hi1, h1, append_index_to_str, hneg] at hfail
    · have hlr := hsingle h1
      have hget : get_wire_name pin index = append_index_to_str pin.name pin.left := by
        simp [get_wire_name, hi1, h1, hlr]
      rw [hget] at hfail
      simp [append_index_to_str, hl] at hfail
  · intro hgood
    cases hres : get_wire_name pin index with
    | ok s => exact ⟨s, rfl⟩
    | error e =>
      obtain ⟨hi1, hc⟩ := hiff.mp ⟨e, hres⟩
      rcases hgood with hg | hg | ⟨hg1, hg2⟩
      · rw [hg] at hi1
        cases hi1
      · omega
      · omega

/-- C19, amended, at concrete inputs: the pairs of an accepted module resolve to names. -/
theorem get_wire_name_of_accepted_witness :
    (∃ s, get_wire_name pin_data 3 = Except.ok s)
    ∧ (∃ s, get_wire_name pin_clk (-1) = Except.ok s) :=
  ⟨(get_wire_name_of_accepted module_ok pin_data 3 (by decide)
      (Or.inl ⟨⟨some pin_data, 3⟩, by decide, rfl, rfl⟩)).2.1 (Or.inr (Or.inl (by decide))),
   (get_wire_name_of_accepted module_ok pin_clk (-1) (by decide)
      (Or.inl ⟨⟨some pin_clk, -1⟩, by decide, rfl, rfl⟩)).2.1 (Or.inl rfl)⟩

/-! ## Distinct bits, distinct names -/

/-- Different numbers have different plain base-10 texts. -/
theorem decimal_injective (a b : Nat) (h : decimal a = decimal b) : a = b := by
  have hv := congrArg decimal_value h
  rwa [decimal_value_decimal, decimal_value_decimal] at hv

/-- The bracketed name determines the number between the brackets. -/
theorem bracket_name_injective (busname : String) (a b : Nat)
    (h : busname ++ "[" ++ decimal a ++ "]" = busname ++ "[" ++ decimal b ++ "]") : a = b := by
  have hd := congrArg String.data h
  simp only [String.data_append, List.append_assoc, List.append_cancel_left_eq] at hd
  have hd1 : (decimal a).data = (decimal b).data := List.append_cancel_right hd
  exact decimal_injective a b (String.ext hd1)

/-- C20. Distinct bits of a bus get distinct names: for two different indices that are not
negative, `append_index_to_str` gives different results on the same bus name, and so does
`get_wire_name` on the same indexed pin. -/
theorem append_index_to_str_injective (busname : String) (i j : Int)
    (hi : i ≥ 0) (hj : j ≥ 0) (hne : i ≠ j) :
    append_index_to_str busname i ≠ append_index_to_str busname j
    ∧ (∀ net : t_pin_def, net.indexed = t_boolean.T_TRUE →
        get_wire_name net i ≠ get_wire_name net j) := by
  have happ : ∀ name : String, append_index_to_str name i ≠ append_index_to_str name j := by
    intro name h
    rw [append_index_to_str_of_nonneg name i hi, append_index_to_str_of_nonneg name j hj] at h
    have hs := Except.ok.inj h
    have hnat : i.toNat = j.toNat := bracket_name_injective name _ _ hs
    omega
  refine ⟨happ busname, ?_⟩
  intro net hidx h
  have hi1 : i ≠ -1 := by omega
  have hj1 : j ≠ -1 := by omega
  simp only [get_wire_name, hidx, hi1, hj1, if_false] at h
  exact happ net.name (by simpa using h)

/-- C20 at concrete inputs: bits 1 and 10 of the bus `data`. -/
theorem append_index_to_str_injective_witness :
    append_index_to_str "data" 1 ≠ append_index_to_str "data" 10
    ∧ get_wire_name pin_data 1 ≠ get_wire_name pin_data 10 :=
  ⟨(append_index_to_str_injective "data" 1 10 (by decide) (by decide) (by decide)).1,
   (append_index_to_str_injective "data" 1 10 (by decide) (by decide) (by decide)).2
      pin_data rfl⟩

/-! ## The parameter scan: type mismatch, other names, scan order -/

theorem not_well_typed_of_mismatch (p : t_node_parameter) (h : type_mismatch p) :
    ¬ well_typed_param p := by
  rintro ⟨hs, hi⟩
  rcases h with ⟨hn, ht⟩ | ⟨hn, ht⟩
  · exact ht (hs hn)
  · exact ht (hi hn)

theorem mismatch_of_not_well_typed (p : t_node_parameter) (h : ¬ well_typed_param p) :
    type_mismatch p := by
  by_contra hm
  apply h
  constructor
  · intro hn
    by_contra ht
    exact hm (Or.inl ⟨hn, ht⟩)
  · intro hn
    by_contra ht
    exact hm (Or.inr ⟨hn, ht⟩)

/-- One iteration of the scan on a parameter with a type mismatch fails its assertion. -/
theorem scan_param_mismatch (found : opname_params) (p : t_node_parameter)
    (h : type_mismatch p) : scan_param found p = Except.error fatal.assert_failed := by
  unfold scan_param
  rcases h with ⟨hn, ht⟩ | ⟨hn | hn | hn | hn, ht⟩
  · simp [hn, ht]
  · simp [hn, ht]
  · simp [hn, ht]
  · simp [hn, ht]
  · simp [hn, ht]

/-- One iteration of the scan on a parameter with another name changes nothing. -/
theorem scan_param_other (found : opname_params) (p : t_node_parameter)
    (h : ¬ recognized_name p.name) : scan_param found p = Except.ok found := by
  have h1 : p.name ≠ "operation_mode" := fun hn => h (Or.inl hn)
  have h2 : p.name ≠ "port_a_data_width" := fun hn => h (Or.inr (Or.inl hn))
  have h3 : p.name ≠ "port_a_address_width" := fun hn => h (Or.inr (Or.inr (Or.inl hn)))
  have h4 : p.name ≠ "port_b_data_width" :=
    fun hn => h (Or.inr (Or.inr (Or.inr (Or.inl hn))))
  have h5 : p.name ≠ "port_b_address_width" :=
    fun hn => h (Or.inr (Or.inr (Or.inr (Or.inr hn))))
  simp [scan_param, h1, h2, h3, h4, h5]

/-- The scan of a collection that holds a type mismatch fails its assertion. -/
theorem scan_params_mismatch (params : List t_node_parameter) :
    ∀ (found : opname_params), (∃ p ∈ params, type_mismatch p) →
      scan_params params found = Except.error fatal.assert_failed := by
  induction params with
  | nil =>
    rintro found ⟨p, hp, _⟩
    simp at hp
  | cons x rest ih =>
    rintro found ⟨p, hp, hm⟩
    by_cases hx : well_typed_param x
    · have hrest : ∃ q ∈ rest, type_mismatch q := by
        rcases List.mem_cons.mp hp with rfl | hp
        · exact absurd hx (not_well_typed_of_mismatch _ hm)
        · exact ⟨p, hp, hm⟩
      rw [scan_params, scan_param_ok found x hx]
      exact ih _ hrest
    · rw [scan_params, scan_param_mismatch found x (mismatch_of_not_well_typed x hx)]

/-- Removing a parameter with another name does not change the scan. -/
theorem scan_params_remove_other (pre post : List t_node_parameter) (p : t_node_parameter)
    (h : ¬ recognized_name p.name) :
    ∀ (found : opname_params),
      scan_params (pre ++ p :: post) found = scan_params (pre ++ post) found := by
  induction pre with
  | nil =>
    intro found
    simp only [List.nil_append]
    rw [scan_params, scan_param_other found p h]
  | cons x pre1 ih =>
    intro found
    simp only [List.cons_append, scan_params]
    cases scan_param found x with
    | error e => rfl
    | ok found1 => exact ih found1

/-- Dropping every parameter with another name does not change the scan. -/
theorem scan_params_filter (params : List t_node_parameter) :
    ∀ (found : opname_params),
      scan_params (params.filter (fun p => decide (recognized_name p.name))) found
        = scan_params params found := by
  induction params with
  | nil => intro found; rfl
  | cons x rest ih =>
    intro found
    by_cases hx : recognized_name x.name
    · have hd : decide (recognized_name x.name) = true := decide_eq_true hx
      rw [List.filter_cons]
      simp only [hd, if_true, scan_params]
      cases scan_param found x with
      | error e => rfl
      | ok found1 => exact ih found1
    · have hd : decide (recognized_name x.name) = false := decide_eq_false hx
      rw [List.filter_cons]
      simp only [hd, Bool.false_eq_true, if_false, ih found]
      conv_rhs => rw [scan_params, scan_param_other found x hx]

/-- The resolver depends on the instance through its type name and the outcome of the scan. -/
theorem generate_opname_congr (node1 node2 : t_node) (arch_models : List t_model)
    (htype : node1.type = node2.type)
    (hscan : scan_params node1.array_of_params opname_params_init
      = scan_params node2.array_of_params opname_params_init) :
    generate_opname node1 arch_models = generate_opname node2 arch_models := by
  unfold generate_opname
  rw [htype, hscan]

/-- C16. A type mismatch on a recognized parameter name is fatal: when the parameter
collection holds a parameter named `operation_mode` that is not string-typed, or a parameter
with one of the four width names that is not integer-typed, the resolver fails (an assertion)
and returns no name.  Parameters with any other name have no effect: removing one of them, or
all of them, leaves the outcome as it is, whatever their type and value. -/
theorem generate_opname_type_mismatch (vqm_node : t_node) (arch_models : List t_model) :
    ((∃ p ∈ vqm_node.array_of_params, type_mismatch p) →
      generate_opname vqm_node arch_models = Except.error fatal.assert_failed
      ∧ ∀ h, generate_opname vqm_node arch_models ≠ Except.ok h)
    ∧ (∀ (pre post : List t_node_parameter) (p : t_node_parameter),
        vqm_node.array_of_params = pre ++ p :: post → ¬ recognized_name p.name →
        generate_opname { vqm_node with array_of_params := pre ++ post } arch_models
          = generate_opname vqm_node arch_models)
    ∧ generate_opname
        { vqm_node with
          array_of_params :=
            vqm_node.array_of_params.filter (fun p => decide (recognized_name p.name)) }
        arch_models
      = generate_opname vqm_node arch_models := by
  refine ⟨?_, ?_, ?_⟩
  · intro hm
    have hres : generate_opname vqm_node arch_models = Except.error fatal.assert_failed := by
      unfold generate_opname
      rw [scan_params_mismatch _ _ hm]
    refine ⟨hres, ?_⟩
    intro h hok
    rw [hres] at hok
    cases hok
  · intro pre post p hparams hother
    apply generate_opname_congr
    · rfl
    · show scan_params (pre ++ post) opname_params_init = _
      rw [hparams, scan_params_remove_other pre post p hother]
  · apply generate_opname_congr
    · rfl
    · exact scan_params_filter _ _

/-- C16 at concrete inputs: an integer-typed `operation_mode` is fatal, also when the catalog
holds the type name; the unrecognized `lut_mask` can be removed without effect. -/
theorem generate_opname_type_mismatch_witness :
    generate_opname ram_mistyped [{ name := "ram" }] = Except.error fatal.assert_failed
    ∧ generate_opname { lcell_comb with array_of_params := [] } [{ name := "stratixiv_lcell_comb" }]
        = generate_opname lcell_comb [{ name := "stratixiv_lcell_comb" }] :=
  ⟨((generate_opname_type_mismatch ram_mistyped [{ name := "ram" }]).1
      ⟨⟨"operation_mode", t_node_parameter_type.NODE_PARAMETER_INTEGER, ⟨"", 1⟩⟩,
        by decide, by decide⟩).1,
   (generate_opname_type_mismatch lcell_comb [{ name := "stratixiv_lcell_comb" }]).2.1 [] []
      ⟨"lut_mask", t_node_parameter_type.NODE_PARAMETER_STRING, ⟨"AAAA", 0⟩⟩ rfl (by decide)⟩

/-- C15, as stated, fails: the block `ram_repeated` carries `port_a_address_width` twice, with
the values 7 and 9; exchanging the two occurrences is a permutation of its parameters, and
against a catalog that holds both names the resolver returns two different names. -/
theorem generate_opname_perm_counterexample :
    List.Perm ram_repeated_permuted.array_of_params ram_repeated.array_of_params
    ∧ ram_repeated_permuted.type = ram_repeated.type
    ∧ generate_opname ram_repeated
        [{ name := "ram.port_a_address_width\x7b7\x7d" }, { name := "ram.port_a_address_width\x7b9\x7d" }]
      = Except.ok "ram.port_a_address_width\x7b9\x7d"
    ∧ generate_opname ram_repeated_permuted
        [{ name := "ram.port_a_address_width\x7b7\x7d" }, { name := "ram.port_a_address_width\x7b9\x7d" }]
      = Except.ok "ram.port_a_address_width\x7b7\x7d" :=
  ⟨List.Perm.cons _ (List.Perm.swap _ _ _), rfl, by decide, by decide⟩

/-- Under a permutation, the pointer that the scan leaves for a name keeps its value, when
the parameters of that name agree on the value. -/
theorem last_param_perm {α : Type} (n : String) (params1 params2 : List t_node_parameter)
    (value : t_node_parameter → α) (hperm : List.Perm params1 params2)
    (hsame : ∀ p ∈ params2, ∀ q ∈ params2, p.name = n → q.name = n → value p = value q) :
    (last_param n params1 none).map value = (last_param n params2 none).map value := by
  by_cases hpres : param_present params2 n
  · obtain ⟨p2, hp2, hn2, hlast2⟩ := last_param_mem n params2 none hpres
    have hpres1 : param_present params1 n := by
      obtain ⟨q, hq, hqn⟩ := hpres
      exact ⟨q, hperm.mem_iff.mpr hq, hqn⟩
    obtain ⟨p1, hp1, hn1, hlast1⟩ := last_param_mem n params1 none hpres1
    rw [hlast1, hlast2]
    simp only [Option.map_some', Option.some.injEq]
    exact hsame p1 (hperm.mem_iff.mp hp1) p2 hp2 hn1 hn2
  · have habs2 : param_absent params2 n := fun q hq hqn => hpres ⟨q, hq, hqn⟩
    have habs1 : param_absent params1 n := fun q hq hqn => hpres ⟨q, hperm.mem_iff.mp hq, hqn⟩
    rw [last_param_absent n params1 none habs1, last_param_absent n params2 none habs2]

/-- The step-1 name depends on the operation mode pointer through the string it holds. -/
theorem opmode_name_congr (type : String) (om1 om2 : Option t_node_parameter)
    (h : om1.map (fun p => p.value.string_value) = om2.map (fun p => p.value.string_value)) :
    opmode_name type om1 = opmode_name type om2 := by
  cases om1 <;> cases om2 <;> simp_all [opmode_name]

/-- The memory-specific part depends on the four width pointers through the integers they
hold. -/
theorem memory_name_congr (mode_hash : String) (found1 found2 : opname_params)
    (arch_models : List t_model)
    (h1 : found1.port_a_data_width.map (fun p => p.value.integer_value)
      = found2.port_a_data_width.map (fun p => p.value.integer_value))
    (h2 : found1.port_a_addr_width.map (fun p => p.value.integer_value)
      = found2.port_a_addr_width.map (fun p => p.value.integer_value))
    (h3 : found1.port_b_data_width.map (fun p => p.value.integer_value)
      = found2.port_b_data_width.map (fun p => p.value.integer_value))
    (h4 : found1.port_b_addr_width.map (fun p => p.value.integer_value)
      = found2.port_b_addr_width.map (fun p => p.value.integer_value)) :
    memory_name mode_hash found1 arch_models = memory_name mode_hash found2 arch_models := by
  obtain ⟨o1, a1, b1, c1, d1⟩ := found1
  obtain ⟨o2, a2, b2, c2, d2⟩ := found2
  cases a1 <;> cases a2 <;> simp at h1 <;>
  cases b1 <;> cases b2 <;> simp at h2 <;>
  cases c1 <;> cases c2 <;> simp at h3 <;>
  cases d1 <;> cases d2 <;> simp at h4 <;>
  simp_all [memory_name]

/-- The scan of a collection in which every parameter meets the type contract, started from
the null pointers. -/
theorem scan_params_well_typed (params : List t_node_parameter)
    (h : ∀ p ∈ params, well_typed_param p) :
    scan_params params opname_params_init = Except.ok
      { operation_mode := last_param "operation_mode" params none,
        port_a_data_width := last_param "port_a_data_width" params none,
        port_a_addr_width := last_param "port_a_address_width" params none,
        port_b_data_width := last_param "port_b_data_width" params none,
        port_b_addr_width := last_param "port_b_address_width" params none } :=
  scan_params_ok params opname_params_init h

theorem read_value_string (p q : t_node_parameter) (hp : p.name = "operation_mode")
    (hq : q.name = "operation_mode") (h : read_value p = read_value q) :
    p.value.string_value = q.value.string_value := by
  simpa [read_value, hp, hq] using h

theorem read_value_integer (n : String) (p q : t_node_parameter) (hn : n ≠ "operation_mode")
    (hp : p.name = n) (hq : q.name = n) (h : read_value p = read_value q) :
    p.value.integer_value = q.value.integer_value := by
  have hp1 : p.name ≠ "operation_mode" := hp ▸ hn
  have hq1 : q.name ≠ "operation_mode" := hq ▸ hn
  simpa [read_value, hp1, hq1] using h

/-- C15, amended. For every instance in which any two parameters that share a recognized
name carry the same value (in particular when no recognized name is repeated), every catalog
and every permutation of the parameter collection, the resolver has the same outcome on the
permuted instance as on the original one: the same returned name, or the same failure. -/
theorem generate_opname_perm (vqm_node : t_node) (params : List t_node_parameter)
    (arch_models : List t_model)
    (hperm : List.Perm params vqm_node.array_of_params)
    (hsame : ∀ p ∈ vqm_node.array_of_params, ∀ q ∈ vqm_node.array_of_params,
      recognized_name p.name → p.name = q.name → read_value p = read_value q) :
    generate_opname { vqm_node with array_of_params := params } arch_models
      = generate_opname vqm_node arch_models := by
  by_cases hwt : ∀ p ∈ vqm_node.array_of_params, well_typed_param p
  · have hwt1 : ∀ p ∈ params, well_typed_param p := fun p hp => hwt p (hperm.mem_iff.mp hp)
    have hstr : ∀ p ∈ vqm_node.array_of_params, ∀ q ∈ vqm_node.array_of_params,
        p.name = "operation_mode" → q.name = "operation_mode" →
        p.value.string_value = q.value.string_value :=
      fun p hp q hq hpn hqn =>
        read_value_string p q hpn hqn (hsame p hp q hq (Or.inl hpn) (hpn.trans hqn.symm))
    have hint : ∀ n : String, n ≠ "operation_mode" → recognized_name n →
        ∀ p ∈ vqm_node.array_of_params, ∀ q ∈ vqm_node.array_of_params,
        p.name = n → q.name = n → p.value.integer_value = q.value.integer_value :=
      fun n hn hrec p hp q hq hpn hqn =>
        read_value_integer n p q hn hpn hqn
          (hsame p hp q hq (hpn ▸ hrec) (hpn.trans hqn.symm))
    rw [generate_opname_of_scan _ arch_models _ (scan_params_well_typed params hwt1),
      generate_opname_of_scan vqm_node arch_models _ (scan_params_well_typed _ hwt)]
    have hom := opmode_name_congr vqm_node.type _ _
      (last_param_perm "operation_mode" params vqm_node.array_of_params _ hperm hstr)
    have hmem := memory_name_congr
      (opmode_name vqm_node.type (last_param "operation_mode" vqm_node.array_of_params none))
      { operation_mode := last_param "operation_mode" params none,
        port_a_data_width := last_param "port_a_data_width" params none,
        port_a_addr_width := last_param "port_a_address_width" params none,
        port_b_data_width := last_param "port_b_data_width" params none,
        port_b_addr_width := last_param "port_b_address_width" params none }
      { operation_mode := last_param "operation_mode" vqm_node.array_of_params none,
        port_a_data_width := last_param "port_a_data_width" vqm_node.array_of_params none,
        port_a_addr_width := last_param "port_a_address_width" vqm_node.array_of_params none,
        port_b_data_width := last_param "port_b_data_width" vqm_node.array_of_params none,
        port_b_addr_width := last_param "port_b_address_width" vqm_node.array_of_params none }
      arch_models
      (last_param_perm "port_a_data_width" params _ _ hperm
        (hint _ (by decide) (by decide)))
      (last_param_perm "port_a_address_width" params _ _ hperm
        (hint _ (by decide) (by decide)))
      (last_param_perm "port_b_data_width" params _ _ hperm
        (hint _ (by decide) (by decide)))
      (last_param_perm "port_b_address_width" params _ _ hperm
        (hint _ (by decide) (by decide)))
    simp only [hom, hmem]
  · have hbad : ∃ p ∈ vqm_node.array_of_params, type_mismatch p := by
      by_contra hnone
      apply hwt
      intro p hp
      by_contra hp1
      exact hnone ⟨p, hp, mismatch_of_not_well_typed p hp1⟩
    have hbad1 : ∃ p ∈ params, type_mismatch p := by
      obtain ⟨p, hp, hm⟩ := hbad
      exact ⟨p, hperm.mem_iff.mpr hp, hm⟩
    unfold generate_opname
    rw [scan_params_mismatch _ _ hbad, scan_params_mismatch _ _ hbad1]

/-- C15, amended, at a concrete input: the single-port example with its parameters in another
order resolves as the example itself. -/
theorem generate_opname_perm_witness :
    generate_opname
        { ram_single_port with
          array_of_params :=
            [⟨"port_a_address_width", t_node_parameter_type.NODE_PARAMETER_INTEGER, ⟨"", 7⟩⟩,
             ⟨"operation_mode", t_node_parameter_type.NODE_PARAMETER_STRING,
               ⟨"single_port", 0⟩⟩,
             ⟨"port_a_data_width", t_node_parameter_type.NODE_PARAMETER_INTEGER, ⟨"", 8⟩⟩] }
        [{ name := "ram.opmode\x7bsingle_port\x7d.port_a_address_width\x7b7\x7d" }]
      = generate_opname ram_single_port
        [{ name := "ram.opmode\x7bsingle_port\x7d.port_a_address_width\x7b7\x7d" }] :=
  generate_opname_perm ram_single_port _ _
    ((List.Perm.swap _ _ _).trans (List.Perm.cons _ (List.Perm.swap _ _ _))) (by decide)

end Vqm2Blif
